import Mathlib

/-!
Uncore PMU discovery table: accessors of `src/uncore_pmu_discovery.h`

Shallow embedding of the class `pcm::UncorePMUDiscovery`.

* Bit-fields are natural numbers; the declared widths are the predicate `BoxPMU.WF`.
* `std::vector` is `List`; unchecked `operator[]` is `Option`-valued (`none` is an
  out-of-bounds read).
* `std::unordered_map<size_t, BoxPMUs>` is an association list; `operator[]` inserts an
  empty list for a missing key, as the C++ container does, so every member function
  is a state transformer: it returns `Option (result × state after the call)`.
* `uint64` / `size_t` arithmetic is arithmetic of `Nat` modulo `2 ^ 64`.
-/

namespace pcm

/-- Width of `uint64` and of `size_t`. -/
def wordSize : Nat := 2 ^ 64

/-- Values of `enum accessTypeEnum`; an unscoped enumeration is its integer value. -/
abbrev accessTypeEnum := Nat

def MSR : accessTypeEnum := 0
def MMIO : accessTypeEnum := 1
def PCICFG : accessTypeEnum := 2
def unknownAccessType : accessTypeEnum := 255

/-- Fields of `struct BoxPMU`, in declaration order. -/
structure BoxPMU where
  numRegs : Nat
  ctrlOffset : Nat
  bitWidth : Nat
  ctrOffset : Nat
  statusOffset : Nat
  reserved1 : Nat
  accessType : Nat
  boxCtrlAddr : Nat
  boxType : Nat
  boxID : Nat
  reserved2 : Nat
  deriving DecidableEq, Repr

/-- Declared bit-field widths of `struct BoxPMU`. -/
def BoxPMU.WF (b : BoxPMU) : Prop :=
  b.numRegs < 2 ^ 8 ∧ b.ctrlOffset < 2 ^ 8 ∧ b.bitWidth < 2 ^ 8 ∧ b.ctrOffset < 2 ^ 8 ∧
  b.statusOffset < 2 ^ 8 ∧ b.reserved1 < 2 ^ 22 ∧ b.accessType < 2 ^ 2 ∧
  b.boxCtrlAddr < 2 ^ 64 ∧ b.boxType < 2 ^ 16 ∧ b.boxID < 2 ^ 16 ∧ b.reserved2 < 2 ^ 32

instance (b : BoxPMU) : Decidable b.WF := by
  unfold BoxPMU.WF; infer_instance

/-- Fields of `struct GlobalPMU`, in declaration order. -/
structure GlobalPMU where
  type : Nat
  stride : Nat
  maxUnits : Nat
  reserved1 : Nat
  accessType : Nat
  globalCtrlAddr : Nat
  statusOffset : Nat
  numStatus : Nat
  reserved2 : Nat
  deriving DecidableEq, Repr

/-- The `typedef std::vector<BoxPMU> BoxPMUs`. -/
abbrev BoxPMUs := List BoxPMU

/-- The `typedef std::unordered_map<size_t, BoxPMUs> BoxPMUMap` (boxType -> BoxPMUs). -/
abbrev BoxPMUMap := List (Nat × BoxPMUs)

/-- Member `std::unordered_map::operator[]`: the mapped value, and the map after the call
(a missing key is inserted with a value-initialised, that is empty, vector). -/
def BoxPMUMap.index (m : BoxPMUMap) (boxType : Nat) : BoxPMUs × BoxPMUMap :=
  match m.lookup boxType with
  | some v => (v, m)
  | none => ([], m ++ [(boxType, [])])

/-- Data members of `class UncorePMUDiscovery`. -/
structure UncorePMUDiscovery where
  boxPMUs : List BoxPMUMap
  globalPMUs : List GlobalPMU
  deriving DecidableEq, Repr

/-- Every stored descriptor respects the declared bit-field widths. -/
def UncorePMUDiscovery.WF (self : UncorePMUDiscovery) : Prop :=
  ∀ m ∈ self.boxPMUs, ∀ kv ∈ m, ∀ b ∈ kv.2, BoxPMU.WF b

instance (self : UncorePMUDiscovery) : Decidable self.WF := by
  unfold UncorePMUDiscovery.WF; infer_instance

/-- The descriptor list stored for `(socket, boxType)`; empty when the socket is out of
range or the socket's map has no entry for `boxType`. -/
def UncorePMUDiscovery.stored (self : UncorePMUDiscovery) (boxType socket : Nat) : BoxPMUs :=
  match self.boxPMUs[socket]? with
  | some m => (m.lookup boxType).getD []
  | none => []

/-- A member function: `none` is an out-of-bounds vector read, otherwise the returned
value and the object after the call. -/
abbrev Method (α : Type) := UncorePMUDiscovery → Option (α × UncorePMUDiscovery)

/-- The value a member function returns (`none` when it reads out of bounds). -/
def Method.result {α : Type} (f : Method α) (self : UncorePMUDiscovery) : Option α :=
  (f self).map Prod.fst

/-- The object after a member function call. -/
def Method.after {α : Type} (f : Method α) (self : UncorePMUDiscovery) :
    Option UncorePMUDiscovery :=
  (f self).map Prod.snd

namespace UncorePMUDiscovery

/-- The expression `boxPMUs[socket][boxType]`: unchecked vector indexing followed by
`unordered_map::operator[]`. -/
def group (boxType socket : Nat) : Method BoxPMUs := fun self =>
  match self.boxPMUs[socket]? with
  | none => none
  | some m =>
    some ((m.index boxType).1, { self with boxPMUs := self.boxPMUs.set socket (m.index boxType).2 })

/-- The expression `boxPMUs[socket][boxType][pos]`. -/
def box (boxType socket pos : Nat) : Method BoxPMU := fun self =>
  match group boxType socket self with
  | none => none
  | some (v, self1) =>
    match v[pos]? with
    | none => none
    | some b => some (b, self1)

/-- Member function `bool validBox(boxType, socket, pos)`; `&&` evaluates its right
operand only when the left one is true. -/
def validBox (boxType socket pos : Nat) : Method Bool := fun self =>
  if socket < self.boxPMUs.length then
    match group boxType socket self with
    | none => none
    | some (v, self1) => some (decide (pos < v.length), self1)
  else some (false, self)

/-- The `switch` of `registerStep` on one descriptor's `accessType` and `bitWidth`. -/
def stepOf (accessType width : Nat) : Nat :=
  if accessType = MSR then
    if width ≤ 64 then 1 else 0
  else if accessType = PCICFG ∨ accessType = MMIO then
    if width ≤ 8 then 1
    else if width ≤ 16 then 2
    else if width ≤ 32 then 4
    else if width ≤ 64 then 8
    else 0
  else 0

/-- Member function `size_t registerStep(boxType, socket, pos)`. -/
def registerStep (boxType socket pos : Nat) : Method Nat := fun self =>
  match box boxType socket pos self with
  | none => none
  | some (b1, self1) =>
    let width := b1.bitWidth
    match box boxType socket pos self1 with
    | none => none
    | some (b2, self2) => some (stepOf b2.accessType width, self2)

/-- Member function `size_t getNumBoxes(boxType, socket)`. -/
def getNumBoxes (boxType socket : Nat) : Method Nat := fun self =>
  if socket < self.boxPMUs.length then
    match group boxType socket self with
    | none => none
    | some (v, self1) => some (v.length, self1)
  else some (0, self)

/-- Member function `uint64 getBoxCtlAddr(boxType, socket, pos)`. -/
def getBoxCtlAddr (boxType socket pos : Nat) : Method Nat := fun self =>
  match validBox boxType socket pos self with
  | none => none
  | some (true, self1) =>
    match box boxType socket pos self1 with
    | none => none
    | some (b, self2) => some (b.boxCtrlAddr, self2)
  | some (false, self1) => some (0, self1)

/-- The guard `validBox(boxType, socket, pos) && c < boxPMUs[socket][boxType][pos].numRegs`
of the two per-register accessors. -/
def validReg (boxType socket pos c : Nat) : Method Bool := fun self =>
  match validBox boxType socket pos self with
  | none => none
  | some (true, self1) =>
    match box boxType socket pos self1 with
    | none => none
    | some (b, self2) => some (decide (c < b.numRegs), self2)
  | some (false, self1) => some (false, self1)

/-- Member function `uint64 getBoxCtlAddr(boxType, socket, pos, c)`. -/
def getBoxCtlAddrC (boxType socket pos c : Nat) : Method Nat := fun self =>
  match validReg boxType socket pos c self with
  | none => none
  | some (true, self1) =>
    match box boxType socket pos self1 with
    | none => none
    | some (b1, self2) =>
      match box boxType socket pos self2 with
      | none => none
      | some (b2, self3) =>
        match registerStep boxType socket pos self3 with
        | none => none
        | some (step, self4) =>
          some (((b1.boxCtrlAddr + b2.ctrlOffset) % wordSize + (c * step) % wordSize) % wordSize,
            self4)
  | some (false, self1) => some (0, self1)

/-- Member function `uint64 getBoxCtrAddr(boxType, socket, pos, c)`. -/
def getBoxCtrAddr (boxType socket pos c : Nat) : Method Nat := fun self =>
  match validReg boxType socket pos c self with
  | none => none
  | some (true, self1) =>
    match box boxType socket pos self1 with
    | none => none
    | some (b1, self2) =>
      match box boxType socket pos self2 with
      | none => none
      | some (b2, self3) =>
        match registerStep boxType socket pos self3 with
        | none => none
        | some (step, self4) =>
          some (((b1.boxCtrlAddr + b2.ctrOffset) % wordSize + (c * step) % wordSize) % wordSize,
            self4)
  | some (false, self1) => some (0, self1)

/-- Member function `accessTypeEnum getBoxAccessType(boxType, socket, pos)`. -/
def getBoxAccessType (boxType socket pos : Nat) : Method accessTypeEnum := fun self =>
  match validBox boxType socket pos self with
  | none => none
  | some (true, self1) =>
    match box boxType socket pos self1 with
    | none => none
    | some (b, self2) => some (b.accessType, self2)
  | some (false, self1) => some (unknownAccessType, self1)

/-- Member function `uint64 getBoxNumRegs(boxType, socket, pos)`. -/
def getBoxNumRegs (boxType socket pos : Nat) : Method Nat := fun self =>
  match validBox boxType socket pos self with
  | none => none
  | some (true, self1) =>
    match box boxType socket pos self1 with
    | none => none
    | some (b, self2) => some (b.numRegs, self2)
  | some (false, self1) => some (0, self1)

/-- The object after `boxPMUs[socket][boxType]` has been evaluated once. -/
def touch (self : UncorePMUDiscovery) (boxType socket : Nat) : UncorePMUDiscovery :=
  match self.boxPMUs[socket]? with
  | none => self
  | some m => { self with boxPMUs := self.boxPMUs.set socket (m.index boxType).2 }

/-- The register-step table in the words of the specification (§4.1): MSR gives 1 up to
64 bit; MMIO and PCICFG give the byte width 1, 2, 4, 8 of the bit-width band; everything
else gives 0. -/
def registerStepTable (accessType bitWidth : Nat) : Nat :=
  if accessType = MSR then
    if bitWidth ≤ 64 then 1 else 0
  else if accessType = MMIO ∨ accessType = PCICFG then
    if bitWidth ≤ 8 then 1
    else if 8 < bitWidth ∧ bitWidth ≤ 16 then 2
    else if 16 < bitWidth ∧ bitWidth ≤ 32 then 4
    else if 32 < bitWidth ∧ bitWidth ≤ 64 then 8
    else 0
  else 0

/-- The access type / width combinations the specification calls unsupported (§4.1):
a width above 64 bit for MSR, MMIO or PCICFG, and every other access type. -/
def unsupportedCombination (accessType bitWidth : Nat) : Prop :=
  (accessType = MSR ∧ 64 < bitWidth) ∨
  (( accessType = MMIO ∨ accessType = PCICFG) ∧ 64 < bitWidth) ∨
  (accessType ≠ MSR ∧ accessType ≠ MMIO ∧ accessType ≠ PCICFG)

/-- A model with one socket whose map holds the single descriptor `d` under `d.boxType`. -/
def oneBox (d : BoxPMU) : UncorePMUDiscovery :=
  { boxPMUs := [[(d.boxType, [d])]], globalPMUs := [] }

/-- The box of the worked example of the specification (§8.4): `boxCtrlAddr = 0x1000`,
`ctrlOffset = 0x10`, MSR, 64 bit, 4 registers. -/
def exampleBox : BoxPMU :=
  { numRegs := 4, ctrlOffset := 0x10, bitWidth := 64, ctrOffset := 0x20, statusOffset := 0,
    reserved1 := 0, accessType := MSR, boxCtrlAddr := 0x1000, boxType := 7, boxID := 0,
    reserved2 := 0 }

/-- One socket holding `exampleBox` as the only box of type 7. -/
def exampleModel : UncorePMUDiscovery := oneBox exampleBox

/-- The example box as a 32-bit MMIO unit. -/
def mmioBox : BoxPMU := { exampleBox with accessType := MMIO, bitWidth := 32 }

/-- The example box as a 9-bit PCICFG unit. -/
def pcicfgBox : BoxPMU := { exampleBox with accessType := PCICFG, bitWidth := 9 }

/-- The example box with the fourth value of the 2-bit `accessType` field. -/
def reservedTypeBox : BoxPMU := { exampleBox with accessType := 3 }

/-- A descriptor whose fields are all zero. -/
def zeroBox : BoxPMU :=
  { numRegs := 0, ctrlOffset := 0, bitWidth := 0, ctrOffset := 0, statusOffset := 0,
    reserved1 := 0, accessType := 0, boxCtrlAddr := 0, boxType := 0, boxID := 0,
    reserved2 := 0 }

/-- A one-register MSR box at address zero with zero offsets. -/
def zeroAddrBox : BoxPMU := { zeroBox with numRegs := 1, bitWidth := 64 }

/-- One socket holding two boxes of type 7, `exampleBox` then `zeroAddrBox`. -/
def twoBoxModel : UncorePMUDiscovery :=
  { boxPMUs := [[(7, [exampleBox, zeroAddrBox])]], globalPMUs := [] }

/-- Static member `const char * accessTypeStr(const uint64 t)`: the `switch` over the
enumerators, and the `return` behind it. -/
def accessTypeStr (t : Nat) : String :=
  if t = MSR then "MSR"
  else if t = MMIO then "MMIO"
  else if t = PCICFG then "PCICFG"
  else "unknown"

/-- One call of a public accessor with its arguments. -/
inductive Query where
  | numBoxes (boxType socket : Nat)
  | ctlAddr (boxType socket pos : Nat)
  | ctlAddrC (boxType socket pos c : Nat)
  | ctrAddr (boxType socket pos c : Nat)
  | accessType (boxType socket pos : Nat)
  | numRegs (boxType socket pos : Nat)
  deriving DecidableEq, Repr

/-- The box type a call is made with. -/
def Query.boxType : Query → Nat
  | .numBoxes b _ => b
  | .ctlAddr b _ _ => b
  | .ctlAddrC b _ _ _ => b
  | .ctrAddr b _ _ _ => b
  | .accessType b _ _ => b
  | .numRegs b _ _ => b

/-- The socket a call is made with. -/
def Query.socket : Query → Nat
  | .numBoxes _ s => s
  | .ctlAddr _ s _ => s
  | .ctlAddrC _ s _ _ => s
  | .ctrAddr _ s _ _ => s
  | .accessType _ s _ => s
  | .numRegs _ s _ => s

/-- The member function a call executes. -/
def Query.run : Query → Method Nat
  | .numBoxes b s => getNumBoxes b s
  | .ctlAddr b s p => getBoxCtlAddr b s p
  | .ctlAddrC b s p c => getBoxCtlAddrC b s p c
  | .ctrAddr b s p c => getBoxCtrAddr b s p c
  | .accessType b s p => getBoxAccessType b s p
  | .numRegs b s p => getBoxNumRegs b s p

/-- The object after a sequence of accessor calls, executed in order; the returned values
are dropped. -/
def runAll : List Query → UncorePMUDiscovery → Option UncorePMUDiscovery
  | [], self => some self
  | q :: qs, self =>
    match q.run self with
    | none => none
    | some (_, self1) => runAll qs self1

/-- Declared bit-field widths of `struct GlobalPMU`. -/
def GlobalPMU.WF (g : GlobalPMU) : Prop :=
  g.type < 2 ^ 8 ∧ g.stride < 2 ^ 8 ∧ g.maxUnits < 2 ^ 10 ∧ g.reserved1 < 2 ^ 36 ∧
  g.accessType < 2 ^ 2 ∧ g.globalCtrlAddr < 2 ^ 64 ∧ g.statusOffset < 2 ^ 8 ∧
  g.numStatus < 2 ^ 16 ∧ g.reserved2 < 2 ^ 40

/-- Widths of the members of `struct BoxPMU`, in declaration order, one list per 64-bit
word of the table entry. -/
def BoxPMU.widths : List (List Nat) := [[8, 8, 8, 8, 8, 22, 2], [64], [16, 16, 32]]

/-- Widths of the members of `struct GlobalPMU`, in declaration order, one list per 64-bit
word of the table entry. -/
def GlobalPMU.widths : List (List Nat) := [[8, 8, 10, 36, 2], [64], [8, 16, 40]]

/-- Modelled from the spec: the bits `lo`, .., `lo + width - 1` of a table word, taken by
shift and mask (§9). The code that fills the descriptors from the table words is not in
the header. -/
def bitField (word lo width : Nat) : Nat := (word / 2 ^ lo) % 2 ^ width

/-- Modelled from the spec: the reading of a three-word table entry as a `BoxPMU` (§3, §6):
the members in declaration order with their declared widths, each word filled from its
least-significant bit. The table reader is not in the header. -/
def BoxPMU.decode (w0 w1 w2 : Nat) : BoxPMU :=
  { numRegs := bitField w0 0 8, ctrlOffset := bitField w0 8 8, bitWidth := bitField w0 16 8,
    ctrOffset := bitField w0 24 8, statusOffset := bitField w0 32 8,
    reserved1 := bitField w0 40 22, accessType := bitField w0 62 2,
    boxCtrlAddr := bitField w1 0 64,
    boxType := bitField w2 0 16, boxID := bitField w2 16 16, reserved2 := bitField w2 32 32 }

/-- Modelled from the spec: the three table words a `BoxPMU` is written back to, reserved
members included (§3). -/
def BoxPMU.pack (b : BoxPMU) : Nat × Nat × Nat :=
  (b.numRegs + 2 ^ 8 * b.ctrlOffset + 2 ^ 16 * b.bitWidth + 2 ^ 24 * b.ctrOffset
      + 2 ^ 32 * b.statusOffset + 2 ^ 40 * b.reserved1 + 2 ^ 62 * b.accessType,
    b.boxCtrlAddr,
    b.boxType + 2 ^ 16 * b.boxID + 2 ^ 32 * b.reserved2)

/-- Modelled from the spec: the reading of a three-word table entry as a `GlobalPMU`
(§3, §6), laid out like `BoxPMU.decode`. The table reader is not in the header. -/
def GlobalPMU.decode (w0 w1 w2 : Nat) : GlobalPMU :=
  { type := bitField w0 0 8, stride := bitField w0 8 8, maxUnits := bitField w0 16 10,
    reserved1 := bitField w0 26 36, accessType := bitField w0 62 2,
    globalCtrlAddr := bitField w1 0 64,
    statusOffset := bitField w2 0 8, numStatus := bitField w2 8 16,
    reserved2 := bitField w2 24 40 }

/-- Modelled from the spec: the three table words a `GlobalPMU` is written back to,
reserved members included (§3). -/
def GlobalPMU.pack (g : GlobalPMU) : Nat × Nat × Nat :=
  (g.type + 2 ^ 8 * g.stride + 2 ^ 16 * g.maxUnits + 2 ^ 26 * g.reserved1
      + 2 ^ 62 * g.accessType,
    g.globalCtrlAddr,
    g.statusOffset + 2 ^ 8 * g.numStatus + 2 ^ 24 * g.reserved2)

/-- Members of `struct BoxPMU` in declaration order, one list per 64-bit word of the
table entry. -/
def BoxPMU.members (b : BoxPMU) : List (List Nat) :=
  [[b.numRegs, b.ctrlOffset, b.bitWidth, b.ctrOffset, b.statusOffset, b.reserved1,
      b.accessType],
    [b.boxCtrlAddr],
    [b.boxType, b.boxID, b.reserved2]]

/-- Members of `struct GlobalPMU` in declaration order, one list per 64-bit word of the
table entry. -/
def GlobalPMU.members (g : GlobalPMU) : List (List Nat) :=
  [[g.type, g.stride, g.maxUnits, g.reserved1, g.accessType],
    [g.globalCtrlAddr],
    [g.statusOffset, g.numStatus, g.reserved2]]

/-- Modelled from the spec: the members of the given widths cut from one table word, in
order, the first at the least-significant bit (§3, §9). The table reader is not in the
header. -/
def cutWord : List Nat → Nat → List Nat
  | [], _ => []
  | n :: ns, w => w % 2 ^ n :: cutWord ns (w / 2 ^ n)

/-- Modelled from the spec: the table word that holds the given member values at the
given widths, in order, the first at the least-significant bit (§3, §9). The table
writer is not in the header. -/
def joinWord : List Nat → List Nat → Nat
  | n :: ns, v :: vs => v + 2 ^ n * joinWord ns vs
  | _, _ => 0

/-- The 32-bit MMIO box placed 18 below the top of the address space, so that the sum
for register 1 wraps around. -/
def wrapBox : BoxPMU := { mmioBox with boxCtrlAddr := 2 ^ 64 - 0x12 }

/-! ## The map lookup and the object it leaves behind -/

theorem BoxPMUMap.index_fst (m : BoxPMUMap) (k : Nat) :
    (m.index k).1 = (m.lookup k).getD [] := by
  unfold BoxPMUMap.index
  cases h : m.lookup k <;> simp

theorem BoxPMUMap.lookup_index (m : BoxPMUMap) (k : Nat) :
    (m.index k).2.lookup k = some ((m.lookup k).getD []) := by
  unfold BoxPMUMap.index
  cases h : m.lookup k with
  | some v => simp [h]
  | none => simp [List.lookup_append, h]

theorem BoxPMUMap.index_index (m : BoxPMUMap) (k : Nat) :
    BoxPMUMap.index (m.index k).2 k = ((m.lookup k).getD [], (m.index k).2) := by
  have h := BoxPMUMap.lookup_index m k
  generalize (m.index k).2 = m1 at h
  simp [BoxPMUMap.index, h]

theorem touch_length (self : UncorePMUDiscovery) (boxType socket : Nat) :
    (touch self boxType socket).boxPMUs.length = self.boxPMUs.length := by
  unfold touch
  cases h : self.boxPMUs[socket]? <;> simp

theorem stored_of_ge (self : UncorePMUDiscovery) (boxType socket : Nat)
    (h : self.boxPMUs.length ≤ socket) : self.stored boxType socket = [] := by
  unfold stored
  rw [List.getElem?_eq_none h]

theorem stored_touch (self : UncorePMUDiscovery) (boxType socket : Nat) :
    (touch self boxType socket).stored boxType socket = self.stored boxType socket := by
  unfold touch stored
  cases h : self.boxPMUs[socket]? with
  | none => simp [h]
  | some m =>
    have hlt : socket < self.boxPMUs.length := by
      by_contra hc
      rw [List.getElem?_eq_none (Nat.le_of_not_lt hc)] at h
      cases h
    simp [List.getElem?_set_self hlt, BoxPMUMap.lookup_index]

theorem touch_touch (self : UncorePMUDiscovery) (boxType socket : Nat) :
    touch (touch self boxType socket) boxType socket = touch self boxType socket := by
  unfold touch
  cases h : self.boxPMUs[socket]? with
  | none => simp [h]
  | some m =>
    have hlt : socket < self.boxPMUs.length := by
      by_contra hc
      rw [List.getElem?_eq_none (Nat.le_of_not_lt hc)] at h
      cases h
    simp [List.getElem?_set_self hlt, BoxPMUMap.index_index, List.set_set]

theorem group_eq (self : UncorePMUDiscovery) (boxType socket : Nat)
    (h : socket < self.boxPMUs.length) :
    group boxType socket self = some (self.stored boxType socket, touch self boxType socket) := by
  unfold group stored touch
  cases hm : self.boxPMUs[socket]? with
  | none =>
    rw [List.getElem?_eq_none_iff] at hm
    omega
  | some m => simp [BoxPMUMap.index_fst]

theorem group_touch (self : UncorePMUDiscovery) (boxType socket : Nat)
    (h : socket < self.boxPMUs.length) :
    group boxType socket (touch self boxType socket)
      = some (self.stored boxType socket, touch self boxType socket) := by
  rw [group_eq _ _ _ (by rw [touch_length]; exact h), stored_touch, touch_touch]

theorem box_eq (self : UncorePMUDiscovery) (boxType socket pos : Nat) (d : BoxPMU)
    (h : socket < self.boxPMUs.length) (hd : (self.stored boxType socket)[pos]? = some d) :
    box boxType socket pos self = some (d, touch self boxType socket) := by
  unfold box
  rw [group_eq _ _ _ h]
  simp [hd]

theorem box_touch (self : UncorePMUDiscovery) (boxType socket pos : Nat) (d : BoxPMU)
    (h : socket < self.boxPMUs.length) (hd : (self.stored boxType socket)[pos]? = some d) :
    box boxType socket pos (touch self boxType socket) = some (d, touch self boxType socket) := by
  unfold box
  rw [group_touch _ _ _ h]
  simp [hd]

/-! ## What each member function computes -/

theorem lt_of_stored (self : UncorePMUDiscovery) (boxType socket pos : Nat) (d : BoxPMU)
    (hd : (self.stored boxType socket)[pos]? = some d) :
    pos < (self.stored boxType socket).length := by
  by_contra hc
  rw [List.getElem?_eq_none (Nat.le_of_not_lt hc)] at hd
  cases hd

theorem validBox_lt (self : UncorePMUDiscovery) (boxType socket pos : Nat)
    (h : socket < self.boxPMUs.length) :
    validBox boxType socket pos self
      = some (decide (pos < (self.stored boxType socket).length), touch self boxType socket) := by
  unfold validBox
  rw [if_pos h, group_eq _ _ _ h]

theorem validBox_ge (self : UncorePMUDiscovery) (boxType socket pos : Nat)
    (h : self.boxPMUs.length ≤ socket) :
    validBox boxType socket pos self = some (false, self) := by
  unfold validBox
  rw [if_neg (Nat.not_lt.mpr h)]

theorem registerStep_touch (self : UncorePMUDiscovery) (boxType socket pos : Nat) (d : BoxPMU)
    (h : socket < self.boxPMUs.length) (hd : (self.stored boxType socket)[pos]? = some d) :
    registerStep boxType socket pos (touch self boxType socket)
      = some (stepOf d.accessType d.bitWidth, touch self boxType socket) := by
  unfold registerStep
  simp [box_touch _ _ _ _ _ h hd]

theorem registerStep_eq (self : UncorePMUDiscovery) (boxType socket pos : Nat) (d : BoxPMU)
    (h : socket < self.boxPMUs.length) (hd : (self.stored boxType socket)[pos]? = some d) :
    registerStep boxType socket pos self
      = some (stepOf d.accessType d.bitWidth, touch self boxType socket) := by
  unfold registerStep
  simp [box_eq _ _ _ _ _ h hd, box_touch _ _ _ _ _ h hd]

theorem getNumBoxes_lt (self : UncorePMUDiscovery) (boxType socket : Nat)
    (h : socket < self.boxPMUs.length) :
    getNumBoxes boxType socket self
      = some ((self.stored boxType socket).length, touch self boxType socket) := by
  unfold getNumBoxes
  rw [if_pos h, group_eq _ _ _ h]

theorem getNumBoxes_ge (self : UncorePMUDiscovery) (boxType socket : Nat)
    (h : self.boxPMUs.length ≤ socket) :
    getNumBoxes boxType socket self = some (0, self) := by
  unfold getNumBoxes
  rw [if_neg (Nat.not_lt.mpr h)]

theorem validReg_eq (self : UncorePMUDiscovery) (boxType socket pos c : Nat) (d : BoxPMU)
    (h : socket < self.boxPMUs.length) (hd : (self.stored boxType socket)[pos]? = some d) :
    validReg boxType socket pos c self
      = some (decide (c < d.numRegs), touch self boxType socket) := by
  unfold validReg
  simp [validBox_lt _ _ _ _ h, lt_of_stored _ _ _ _ d hd, box_touch _ _ _ _ _ h hd]

theorem validReg_pos (self : UncorePMUDiscovery) (boxType socket pos c : Nat)
    (h : socket < self.boxPMUs.length) (hp : (self.stored boxType socket).length ≤ pos) :
    validReg boxType socket pos c self = some (false, touch self boxType socket) := by
  unfold validReg
  simp [validBox_lt _ _ _ _ h, Nat.not_lt.mpr hp]

theorem validReg_ge (self : UncorePMUDiscovery) (boxType socket pos c : Nat)
    (h : self.boxPMUs.length ≤ socket) :
    validReg boxType socket pos c self = some (false, self) := by
  unfold validReg
  simp [validBox_ge _ _ _ _ h]

/-- The three-argument accessors share one shape: the guard, then one field read. -/
theorem field_eq (self : UncorePMUDiscovery) (boxType socket pos : Nat) (d : BoxPMU)
    (h : socket < self.boxPMUs.length) (hd : (self.stored boxType socket)[pos]? = some d) :
    getBoxCtlAddr boxType socket pos self = some (d.boxCtrlAddr, touch self boxType socket) ∧
    getBoxAccessType boxType socket pos self = some (d.accessType, touch self boxType socket) ∧
    getBoxNumRegs boxType socket pos self = some (d.numRegs, touch self boxType socket) := by
  unfold getBoxCtlAddr getBoxAccessType getBoxNumRegs
  simp [validBox_lt _ _ _ _ h, lt_of_stored _ _ _ _ d hd, box_touch _ _ _ _ _ h hd]

theorem field_pos (self : UncorePMUDiscovery) (boxType socket pos : Nat)
    (h : socket < self.boxPMUs.length) (hp : (self.stored boxType socket).length ≤ pos) :
    getBoxCtlAddr boxType socket pos self = some (0, touch self boxType socket) ∧
    getBoxAccessType boxType socket pos self
      = some (unknownAccessType, touch self boxType socket) ∧
    getBoxNumRegs boxType socket pos self = some (0, touch self boxType socket) := by
  unfold getBoxCtlAddr getBoxAccessType getBoxNumRegs
  simp [validBox_lt _ _ _ _ h, Nat.not_lt.mpr hp]

theorem field_ge (self : UncorePMUDiscovery) (boxType socket pos : Nat)
    (h : self.boxPMUs.length ≤ socket) :
    getBoxCtlAddr boxType socket pos self = some (0, self) ∧
    getBoxAccessType boxType socket pos self = some (unknownAccessType, self) ∧
    getBoxNumRegs boxType socket pos self = some (0, self) := by
  unfold getBoxCtlAddr getBoxAccessType getBoxNumRegs
  simp [validBox_ge _ _ _ _ h]

theorem reg_eq (self : UncorePMUDiscovery) (boxType socket pos c : Nat) (d : BoxPMU)
    (h : socket < self.boxPMUs.length) (hd : (self.stored boxType socket)[pos]? = some d)
    (hc : c < d.numRegs) :
    getBoxCtlAddrC boxType socket pos c self
      = some ((d.boxCtrlAddr + d.ctrlOffset + c * stepOf d.accessType d.bitWidth) % 2 ^ 64,
          touch self boxType socket) ∧
    getBoxCtrAddr boxType socket pos c self
      = some ((d.boxCtrlAddr + d.ctrOffset + c * stepOf d.accessType d.bitWidth) % 2 ^ 64,
          touch self boxType socket) := by
  unfold getBoxCtlAddrC getBoxCtrAddr
  simp [validReg_eq _ _ _ _ _ _ h hd, hc, box_touch _ _ _ _ _ h hd,
    registerStep_touch _ _ _ _ _ h hd, wordSize]

theorem reg_ge_numRegs (self : UncorePMUDiscovery) (boxType socket pos c : Nat) (d : BoxPMU)
    (h : socket < self.boxPMUs.length) (hd : (self.stored boxType socket)[pos]? = some d)
    (hc : d.numRegs ≤ c) :
    getBoxCtlAddrC boxType socket pos c self = some (0, touch self boxType socket) ∧
    getBoxCtrAddr boxType socket pos c self = some (0, touch self boxType socket) := by
  unfold getBoxCtlAddrC getBoxCtrAddr
  simp [validReg_eq _ _ _ _ _ _ h hd, Nat.not_lt.mpr hc]

theorem reg_pos (self : UncorePMUDiscovery) (boxType socket pos c : Nat)
    (h : socket < self.boxPMUs.length) (hp : (self.stored boxType socket).length ≤ pos) :
    getBoxCtlAddrC boxType socket pos c self = some (0, touch self boxType socket) ∧
    getBoxCtrAddr boxType socket pos c self = some (0, touch self boxType socket) := by
  unfold getBoxCtlAddrC getBoxCtrAddr
  simp [validReg_pos _ _ _ _ _ h hp]

theorem reg_ge (self : UncorePMUDiscovery) (boxType socket pos c : Nat)
    (h : self.boxPMUs.length ≤ socket) :
    getBoxCtlAddrC boxType socket pos c self = some (0, self) ∧
    getBoxCtrAddr boxType socket pos c self = some (0, self) := by
  unfold getBoxCtlAddrC getBoxCtrAddr
  simp [validReg_ge _ _ _ _ _ h]

theorem stepOf_eq_table (accessType bitWidth : Nat) :
    stepOf accessType bitWidth = registerStepTable accessType bitWidth := by
  unfold stepOf registerStepTable MSR MMIO PCICFG
  split_ifs <;> first | rfl | omega

theorem stepOf_eq_zero_iff (accessType bitWidth : Nat) :
    stepOf accessType bitWidth = 0 ↔ unsupportedCombination accessType bitWidth := by
  unfold stepOf unsupportedCombination MSR MMIO PCICFG
  split_ifs <;> constructor <;> intro h <;> first | omega | exact h.elim

theorem stepOf_le (accessType bitWidth : Nat) : stepOf accessType bitWidth ≤ 8 := by
  unfold stepOf
  split_ifs <;> omega

/-- A stored descriptor of a well-formed model respects the bit-field widths. -/
theorem wf_of_stored (self : UncorePMUDiscovery) (hwf : self.WF) (boxType socket pos : Nat)
    (d : BoxPMU) (hd : (self.stored boxType socket)[pos]? = some d) : d.WF := by
  unfold stored at hd
  cases hm : self.boxPMUs[socket]? with
  | none => simp [hm] at hd
  | some m =>
    rw [hm] at hd
    cases hv : m.lookup boxType with
    | none => simp [hv] at hd
    | some v =>
      simp only [hv, Option.getD_some] at hd
      obtain ⟨l1, l2, hl, _⟩ := List.lookup_eq_some_iff.mp hv
      have hmem : (boxType, v) ∈ m := by
        rw [hl]
        simp
      exact hwf m (List.getElem?_mem hm) (boxType, v) hmem d (List.getElem?_mem hd)

/-! ## Properties of the accessors -/

/-- C1: for a valid triple with stored descriptor `d` and a register index `c < d.numRegs`,
`getBoxCtlAddr(boxType, socket, pos, c)` returns
`boxCtrlAddr + ctrlOffset + c * registerStep(boxType, socket, pos)` in unsigned 64-bit
arithmetic. -/
theorem getBoxCtlAddrC_valid (self : UncorePMUDiscovery) (boxType socket pos c : Nat)
    (d : BoxPMU) (hs : socket < self.boxPMUs.length)
    (hd : (self.stored boxType socket)[pos]? = some d) (hc : c < d.numRegs) :
    ∃ step, (registerStep boxType socket pos).result self = some step ∧
      (getBoxCtlAddrC boxType socket pos c).result self
        = some ((d.boxCtrlAddr + d.ctrlOffset + c * step) % 2 ^ 64) := by
  refine ⟨stepOf d.accessType d.bitWidth, ?_, ?_⟩
  · simp [Method.result, registerStep_eq _ _ _ _ _ hs hd]
  · simp [Method.result, (reg_eq _ _ _ _ _ _ hs hd hc).1]

/-- The worked example: `0x1010` for `c = 0` and `0x1013` for `c = 3`. -/
theorem getBoxCtlAddrC_valid_witness :
    (0 < exampleModel.boxPMUs.length ∧ (exampleModel.stored 7 0)[0]? = some exampleBox ∧
      3 < exampleBox.numRegs) ∧
    (∃ step, (registerStep 7 0 0).result exampleModel = some step ∧
      (getBoxCtlAddrC 7 0 0 3).result exampleModel
        = some ((exampleBox.boxCtrlAddr + exampleBox.ctrlOffset + 3 * step) % 2 ^ 64)) ∧
    (getBoxCtlAddrC 7 0 0 0).result exampleModel = some 0x1010 ∧
    (getBoxCtlAddrC 7 0 0 3).result exampleModel = some 0x1013 :=
  ⟨by decide,
   getBoxCtlAddrC_valid exampleModel 7 0 0 3 exampleBox (by decide) (by decide) (by decide),
   by decide, by decide⟩

/-- C2: for a valid triple with stored descriptor `d` and a register index `c < d.numRegs`,
`getBoxCtrAddr(boxType, socket, pos, c)` returns
`boxCtrlAddr + ctrOffset + c * registerStep(boxType, socket, pos)` in unsigned 64-bit
arithmetic: the counter offset is used, not the control offset. -/
theorem getBoxCtrAddr_valid (self : UncorePMUDiscovery) (boxType socket pos c : Nat)
    (d : BoxPMU) (hs : socket < self.boxPMUs.length)
    (hd : (self.stored boxType socket)[pos]? = some d) (hc : c < d.numRegs) :
    ∃ step, (registerStep boxType socket pos).result self = some step ∧
      (getBoxCtrAddr boxType socket pos c).result self
        = some ((d.boxCtrlAddr + d.ctrOffset + c * step) % 2 ^ 64) := by
  refine ⟨stepOf d.accessType d.bitWidth, ?_, ?_⟩
  · simp [Method.result, registerStep_eq _ _ _ _ _ hs hd]
  · simp [Method.result, (reg_eq _ _ _ _ _ _ hs hd hc).2]

/-- The example box has `ctrOffset = 0x20`, so counter 3 is at `0x1023`, not `0x1013`. -/
theorem getBoxCtrAddr_valid_witness :
    (0 < exampleModel.boxPMUs.length ∧ (exampleModel.stored 7 0)[0]? = some exampleBox ∧
      3 < exampleBox.numRegs) ∧
    (∃ step, (registerStep 7 0 0).result exampleModel = some step ∧
      (getBoxCtrAddr 7 0 0 3).result exampleModel
        = some ((exampleBox.boxCtrlAddr + exampleBox.ctrOffset + 3 * step) % 2 ^ 64)) ∧
    (getBoxCtrAddr 7 0 0 3).result exampleModel = some 0x1023 :=
  ⟨by decide,
   getBoxCtrAddr_valid exampleModel 7 0 0 3 exampleBox (by decide) (by decide) (by decide),
   by decide⟩

/-- C3: for a valid triple with stored descriptor `d`, `registerStep` returns the entry of
the specified table for `(d.accessType, d.bitWidth)`, and the returned step is 0 if and
only if that combination is unsupported. -/
theorem registerStep_table (self : UncorePMUDiscovery) (boxType socket pos : Nat)
    (d : BoxPMU) (hs : socket < self.boxPMUs.length)
    (hd : (self.stored boxType socket)[pos]? = some d) :
    (registerStep boxType socket pos).result self
      = some (registerStepTable d.accessType d.bitWidth) ∧
    ((registerStep boxType socket pos).result self = some 0
      ↔ unsupportedCombination d.accessType d.bitWidth) := by
  have h : (registerStep boxType socket pos).result self
      = some (stepOf d.accessType d.bitWidth) := by
    simp [Method.result, registerStep_eq _ _ _ _ _ hs hd]
  refine ⟨by rw [h, stepOf_eq_table], ?_⟩
  rw [h, ← stepOf_eq_zero_iff]
  simp

/-- The three examples of the specification: (MSR, 64) gives 1, (MMIO, 32) gives 4 and
(PCICFG, 9) gives 2. -/
theorem registerStep_table_witness :
    (0 < (oneBox mmioBox).boxPMUs.length ∧ ((oneBox mmioBox).stored 7 0)[0]? = some mmioBox) ∧
    ((registerStep 7 0 0).result (oneBox mmioBox)
        = some (registerStepTable mmioBox.accessType mmioBox.bitWidth) ∧
      ((registerStep 7 0 0).result (oneBox mmioBox) = some 0
        ↔ unsupportedCombination mmioBox.accessType mmioBox.bitWidth)) ∧
    (registerStep 7 0 0).result exampleModel = some 1 ∧
    (registerStep 7 0 0).result (oneBox mmioBox) = some 4 ∧
    (registerStep 7 0 0).result (oneBox pcicfgBox) = some 2 :=
  ⟨by decide, registerStep_table (oneBox mmioBox) 7 0 0 mmioBox (by decide) (by decide),
   by decide, by decide, by decide⟩

/-- C4: for an invalid triple (socket out of range, or `pos` not below the number of
descriptors stored for `(socket, boxType)`) every accessor returns its sentinel: 0 for the
addresses and the register count, `unknownAccessType` for the access type, for every
register index; and `getNumBoxes` returns 0 when the socket is out of range. -/
theorem invalid_sentinel (self : UncorePMUDiscovery) (boxType socket pos : Nat)
    (h : self.boxPMUs.length ≤ socket ∨ (self.stored boxType socket).length ≤ pos) :
    (getBoxCtlAddr boxType socket pos).result self = some 0 ∧
    (∀ c, (getBoxCtlAddrC boxType socket pos c).result self = some 0) ∧
    (∀ c, (getBoxCtrAddr boxType socket pos c).result self = some 0) ∧
    (getBoxAccessType boxType socket pos).result self = some unknownAccessType ∧
    (getBoxNumRegs boxType socket pos).result self = some 0 ∧
    (self.boxPMUs.length ≤ socket → (getNumBoxes boxType socket).result self = some 0) := by
  have hnum : self.boxPMUs.length ≤ socket →
      (getNumBoxes boxType socket).result self = some 0 := by
    intro hge
    simp [Method.result, getNumBoxes_ge _ _ _ hge]
  by_cases hs : socket < self.boxPMUs.length
  · have hp : (self.stored boxType socket).length ≤ pos := by
      rcases h with h | h
      · omega
      · exact h
    obtain ⟨h1, h2, h3⟩ := field_pos self boxType socket pos hs hp
    refine ⟨?_, ?_, ?_, ?_, ?_, hnum⟩
    · simp [Method.result, h1]
    · intro c
      simp [Method.result, (reg_pos _ _ _ _ c hs hp).1]
    · intro c
      simp [Method.result, (reg_pos _ _ _ _ c hs hp).2]
    · simp [Method.result, h2]
    · simp [Method.result, h3]
  · have hge : self.boxPMUs.length ≤ socket := Nat.le_of_not_lt hs
    obtain ⟨h1, h2, h3⟩ := field_ge self boxType socket pos hge
    refine ⟨?_, ?_, ?_, ?_, ?_, hnum⟩
    · simp [Method.result, h1]
    · intro c
      simp [Method.result, (reg_ge _ _ _ _ c hge).1]
    · intro c
      simp [Method.result, (reg_ge _ _ _ _ c hge).2]
    · simp [Method.result, h2]
    · simp [Method.result, h3]

/-- Socket 0 of the example holds no group of box type 9, so `(9, 0, 0)` is invalid; socket
1 does not exist, so `getBoxAccessType` gives 255 and `getNumBoxes` gives 0 there. -/
theorem invalid_sentinel_witness :
    (exampleModel.boxPMUs.length ≤ 0 ∨ (exampleModel.stored 9 0).length ≤ 0) ∧
    ((getBoxCtlAddr 9 0 0).result exampleModel = some 0 ∧
    (∀ c, (getBoxCtlAddrC 9 0 0 c).result exampleModel = some 0) ∧
    (∀ c, (getBoxCtrAddr 9 0 0 c).result exampleModel = some 0) ∧
    (getBoxAccessType 9 0 0).result exampleModel = some unknownAccessType ∧
    (getBoxNumRegs 9 0 0).result exampleModel = some 0 ∧
    (exampleModel.boxPMUs.length ≤ 0 → (getNumBoxes 9 0).result exampleModel = some 0)) ∧
    (getBoxAccessType 7 1 0).result exampleModel = some 255 ∧
    (getNumBoxes 7 1).result exampleModel = some 0 :=
  ⟨by decide, invalid_sentinel exampleModel 9 0 0 (by decide), by decide, by decide⟩

/-- C5: for a valid triple with stored descriptor `d` and a register index
`c ≥ d.numRegs`, both per-register accessors return 0. -/
theorem reg_index_out_of_range (self : UncorePMUDiscovery) (boxType socket pos c : Nat)
    (d : BoxPMU) (hs : socket < self.boxPMUs.length)
    (hd : (self.stored boxType socket)[pos]? = some d) (hc : d.numRegs ≤ c) :
    (getBoxCtlAddrC boxType socket pos c).result self = some 0 ∧
    (getBoxCtrAddr boxType socket pos c).result self = some 0 := by
  obtain ⟨h1, h2⟩ := reg_ge_numRegs _ _ _ _ _ _ hs hd hc
  simp [Method.result, h1, h2]

/-- The example box has 4 registers, so index 4 is rejected; a box with no register
rejects index 0. -/
theorem reg_index_out_of_range_witness :
    (0 < exampleModel.boxPMUs.length ∧ (exampleModel.stored 7 0)[0]? = some exampleBox ∧
      exampleBox.numRegs ≤ 4) ∧
    ((getBoxCtlAddrC 7 0 0 4).result exampleModel = some 0 ∧
      (getBoxCtrAddr 7 0 0 4).result exampleModel = some 0) ∧
    (getBoxCtlAddrC 0 0 0 0).result (oneBox zeroBox) = some 0 :=
  ⟨by decide,
   reg_index_out_of_range exampleModel 7 0 0 4 exampleBox (by decide) (by decide) (by decide),
   by decide⟩

/-- C6: for a socket in range whose map is `m`, `getNumBoxes(boxType, socket)` returns the
length of the list `m` stores under `boxType`, and 0 when `m` has no entry for `boxType`. -/
theorem getNumBoxes_stored (self : UncorePMUDiscovery) (boxType socket : Nat)
    (m : BoxPMUMap) (hm : self.boxPMUs[socket]? = some m) :
    (getNumBoxes boxType socket).result self = some (self.stored boxType socket).length ∧
    (∀ v, m.lookup boxType = some v →
      (getNumBoxes boxType socket).result self = some v.length) ∧
    (m.lookup boxType = none → (getNumBoxes boxType socket).result self = some 0) := by
  have hs : socket < self.boxPMUs.length := by
    by_contra hc
    rw [List.getElem?_eq_none (Nat.le_of_not_lt hc)] at hm
    cases hm
  have h : (getNumBoxes boxType socket).result self
      = some (self.stored boxType socket).length := by
    simp [Method.result, getNumBoxes_lt _ _ _ hs]
  refine ⟨h, ?_, ?_⟩
  · intro v hv
    rw [h]
    simp [stored, hm, hv]
  · intro hv
    rw [h]
    simp [stored, hm, hv]

/-- Socket 0 of the example stores one box of type 7 and none of type 9. -/
theorem getNumBoxes_stored_witness :
    exampleModel.boxPMUs[0]? = some [(7, [exampleBox])] ∧
    ((getNumBoxes 7 0).result exampleModel = some (exampleModel.stored 7 0).length ∧
      (∀ v, List.lookup 7 [(7, [exampleBox])] = some v →
        (getNumBoxes 7 0).result exampleModel = some v.length) ∧
      (List.lookup 7 [(7, [exampleBox])] = none →
        (getNumBoxes 7 0).result exampleModel = some 0)) ∧
    (getNumBoxes 7 0).result exampleModel = some 1 ∧
    (getNumBoxes 9 0).result exampleModel = some 0 :=
  ⟨by decide, getNumBoxes_stored exampleModel 7 0 [(7, [exampleBox])] (by decide),
   by decide, by decide⟩

/-- C7: for a valid triple, the three-argument accessors return the fields of the
`pos`-th descriptor, in stored order, of the `(socket, boxType)` group:
`boxCtrlAddr`, `numRegs` and the stored `accessType` value. -/
theorem field_accessors (self : UncorePMUDiscovery) (boxType socket pos : Nat)
    (d : BoxPMU) (hs : socket < self.boxPMUs.length)
    (hd : (self.stored boxType socket)[pos]? = some d) :
    (getBoxCtlAddr boxType socket pos).result self = some d.boxCtrlAddr ∧
    (getBoxNumRegs boxType socket pos).result self = some d.numRegs ∧
    (getBoxAccessType boxType socket pos).result self = some d.accessType := by
  obtain ⟨h1, h2, h3⟩ := field_eq _ _ _ _ _ hs hd
  simp [Method.result, h1, h2, h3]

/-- In a group of two boxes, position 1 reads the second descriptor. -/
theorem field_accessors_witness :
    (0 < twoBoxModel.boxPMUs.length ∧
      (twoBoxModel.stored 7 0)[1]? = some zeroAddrBox) ∧
    ((getBoxCtlAddr 7 0 1).result twoBoxModel
        = some zeroAddrBox.boxCtrlAddr ∧
      (getBoxNumRegs 7 0 1).result twoBoxModel
        = some zeroAddrBox.numRegs ∧
      (getBoxAccessType 7 0 1).result twoBoxModel
        = some zeroAddrBox.accessType) ∧
    (getBoxCtlAddr 7 0 0).result twoBoxModel
      = some 0x1000 :=
  ⟨by decide,
   field_accessors twoBoxModel 7 0 1
     zeroAddrBox (by decide) (by decide),
   by decide⟩

/-- C8, refuted as stated: a descriptor whose 2-bit `accessType` field holds 3 is valid,
and `getBoxAccessType` returns 3, which is none of MSR, MMIO, PCICFG. -/
theorem getBoxAccessType_reserved_value :
    (oneBox reservedTypeBox).WF ∧
    0 < (oneBox reservedTypeBox).boxPMUs.length ∧
    ((oneBox reservedTypeBox).stored 7 0)[0]? = some reservedTypeBox ∧
    (getBoxAccessType 7 0 0).result (oneBox reservedTypeBox) = some 3 ∧
    ¬ ((getBoxAccessType 7 0 0).result (oneBox reservedTypeBox) = some MSR ∨
       (getBoxAccessType 7 0 0).result (oneBox reservedTypeBox) = some MMIO ∨
       (getBoxAccessType 7 0 0).result (oneBox reservedTypeBox) = some PCICFG) := by
  decide

/-- C8, amended: for a model whose descriptors respect the bit-field widths and a valid
triple, `getBoxAccessType` returns the stored 2-bit value unchanged; it is below 4, and
it is one of MSR, MMIO, PCICFG exactly when the stored field is not 3. -/
theorem getBoxAccessType_two_bit (self : UncorePMUDiscovery) (hwf : self.WF)
    (boxType socket pos : Nat) (d : BoxPMU) (hs : socket < self.boxPMUs.length)
    (hd : (self.stored boxType socket)[pos]? = some d) :
    (getBoxAccessType boxType socket pos).result self = some d.accessType ∧
    d.accessType < 4 ∧
    ((d.accessType = MSR ∨ d.accessType = MMIO ∨ d.accessType = PCICFG)
      ↔ d.accessType ≠ 3) := by
  have hw : d.accessType < 2 ^ 2 := (wf_of_stored self hwf _ _ _ d hd).2.2.2.2.2.2.1
  refine ⟨?_, by omega, ?_⟩
  · simp [Method.result, (field_eq _ _ _ _ _ hs hd).2.1]
  · unfold MSR MMIO PCICFG
    constructor <;> intro h <;> omega

/-- The MMIO example box reads back as MMIO. -/
theorem getBoxAccessType_two_bit_witness :
    ((oneBox mmioBox).WF ∧ 0 < (oneBox mmioBox).boxPMUs.length ∧
      ((oneBox mmioBox).stored 7 0)[0]? = some mmioBox) ∧
    ((getBoxAccessType 7 0 0).result (oneBox mmioBox) = some mmioBox.accessType ∧
      mmioBox.accessType < 4 ∧
      (( mmioBox.accessType = MSR ∨ mmioBox.accessType = MMIO ∨ mmioBox.accessType = PCICFG)
        ↔ mmioBox.accessType ≠ 3)) ∧
    (getBoxAccessType 7 0 0).result (oneBox mmioBox) = some MMIO :=
  ⟨by decide,
   getBoxAccessType_two_bit (oneBox mmioBox) (by decide) 7 0 0 mmioBox (by decide) (by decide),
   by decide⟩

/-- C9, refuted as stated: position 0 is below `getNumBoxes`, yet a descriptor whose
`boxCtrlAddr` and `numRegs` are 0 makes `getBoxCtlAddr` and `getBoxNumRegs` return 0, and
a one-register box at address 0 with zero offsets makes both per-register accessors
return 0 for `c = 0 < numRegs`. -/
theorem valid_position_returns_zero :
    (oneBox zeroBox).WF ∧ (oneBox zeroAddrBox).WF ∧
    (getNumBoxes 0 0).result (oneBox zeroBox) = some 1 ∧
    (getBoxCtlAddr 0 0 0).result (oneBox zeroBox) = some 0 ∧
    (getBoxNumRegs 0 0 0).result (oneBox zeroBox) = some 0 ∧
    (getNumBoxes 0 0).result (oneBox zeroAddrBox) = some 1 ∧
    (getBoxNumRegs 0 0 0).result (oneBox zeroAddrBox) = some 1 ∧
    (getBoxCtlAddrC 0 0 0 0).result (oneBox zeroAddrBox) = some 0 ∧
    (getBoxCtrAddr 0 0 0 0).result (oneBox zeroAddrBox) = some 0 := by
  decide

/-- C9, amended: for a model whose descriptors respect the bit-field widths, a socket in
range and a position below `getNumBoxes(boxType, socket)`, there is a stored descriptor
`d` at that position and: `getBoxAccessType` never returns `unknownAccessType`;
`getBoxCtlAddr(boxType, socket, pos)` and `getBoxNumRegs` return 0 exactly when the stored
`boxCtrlAddr`, respectively `numRegs`, is 0; and for every `c < numRegs` the per-register
accessors return 0 exactly when `boxCtrlAddr + offset + c * step` is a multiple of `2 ^ 64`,
so never when `boxCtrlAddr` is nonzero and `boxCtrlAddr + 2287 < 2 ^ 64`. -/
theorem valid_position_sentinel (self : UncorePMUDiscovery) (hwf : self.WF)
    (boxType socket pos n : Nat) (hs : socket < self.boxPMUs.length)
    (hn : (getNumBoxes boxType socket).result self = some n) (hp : pos < n) :
    ∃ d step, (self.stored boxType socket)[pos]? = some d ∧
      (registerStep boxType socket pos).result self = some step ∧
      (∃ t, (getBoxAccessType boxType socket pos).result self = some t ∧
        t ≠ unknownAccessType) ∧
      (∃ a, (getBoxCtlAddr boxType socket pos).result self = some a ∧
        (a = 0 ↔ d.boxCtrlAddr = 0)) ∧
      (∃ r, (getBoxNumRegs boxType socket pos).result self = some r ∧
        (r = 0 ↔ d.numRegs = 0)) ∧
      (∀ c, c < d.numRegs →
        (∃ a, (getBoxCtlAddrC boxType socket pos c).result self = some a ∧
          (a = 0 ↔ 2 ^ 64 ∣ d.boxCtrlAddr + d.ctrlOffset + c * step) ∧
          (0 < d.boxCtrlAddr → d.boxCtrlAddr + 2287 < 2 ^ 64 → a ≠ 0)) ∧
        (∃ a, (getBoxCtrAddr boxType socket pos c).result self = some a ∧
          (a = 0 ↔ 2 ^ 64 ∣ d.boxCtrlAddr + d.ctrOffset + c * step) ∧
          (0 < d.boxCtrlAddr → d.boxCtrlAddr + 2287 < 2 ^ 64 → a ≠ 0))) := by
  have hlen : n = (self.stored boxType socket).length := by
    simp [Method.result, getNumBoxes_lt _ _ _ hs] at hn
    exact hn.symm
  have hlt : pos < (self.stored boxType socket).length := by omega
  obtain ⟨d, hd⟩ : ∃ d, (self.stored boxType socket)[pos]? = some d :=
    ⟨_, List.getElem?_eq_getElem hlt⟩
  refine ⟨d, stepOf d.accessType d.bitWidth, hd, ?_⟩
  obtain ⟨h1, h2, h3⟩ := field_eq self boxType socket pos d hs hd
  obtain ⟨w1, w2, -, w4, -, -, w7, -⟩ := wf_of_stored self hwf _ _ _ d hd
  have hstep := stepOf_le d.accessType d.bitWidth
  refine ⟨?_, ⟨d.accessType, ?_, ?_⟩, ⟨d.boxCtrlAddr, ?_, Iff.rfl⟩, ⟨d.numRegs, ?_, Iff.rfl⟩, ?_⟩
  · simp [Method.result, registerStep_eq _ _ _ _ _ hs hd]
  · simp [Method.result, h2]
  · intro h
    have h255 : d.accessType = 255 := h
    omega
  · simp [Method.result, h1]
  · simp [Method.result, h3]
  · intro c hc
    obtain ⟨r1, r2⟩ := reg_eq self boxType socket pos c d hs hd hc
    have hprod : c * stepOf d.accessType d.bitWidth ≤ 254 * 8 :=
      Nat.mul_le_mul (by omega) hstep
    refine ⟨⟨(d.boxCtrlAddr + d.ctrlOffset + c * stepOf d.accessType d.bitWidth) % 2 ^ 64,
        by simp [Method.result, r1], ?_, ?_⟩,
      ⟨(d.boxCtrlAddr + d.ctrOffset + c * stepOf d.accessType d.bitWidth) % 2 ^ 64,
        by simp [Method.result, r2], ?_, ?_⟩⟩
    · exact Nat.dvd_iff_mod_eq_zero.symm
    · intro h0 hb
      rw [Nat.mod_eq_of_lt (by omega)]
      omega
    · exact Nat.dvd_iff_mod_eq_zero.symm
    · intro h0 hb
      rw [Nat.mod_eq_of_lt (by omega)]
      omega

/-- The example box: every accessor is nonzero at position 0. -/
theorem valid_position_sentinel_witness :
    (exampleModel.WF ∧ 0 < exampleModel.boxPMUs.length ∧
      (getNumBoxes 7 0).result exampleModel = some 1 ∧ 0 < 1) ∧
    (∃ d step, (exampleModel.stored 7 0)[0]? = some d ∧
      (registerStep 7 0 0).result exampleModel = some step ∧
      (∃ t, (getBoxAccessType 7 0 0).result exampleModel = some t ∧
        t ≠ unknownAccessType) ∧
      (∃ a, (getBoxCtlAddr 7 0 0).result exampleModel = some a ∧
        (a = 0 ↔ d.boxCtrlAddr = 0)) ∧
      (∃ r, (getBoxNumRegs 7 0 0).result exampleModel = some r ∧
        (r = 0 ↔ d.numRegs = 0)) ∧
      (∀ c, c < d.numRegs →
        (∃ a, (getBoxCtlAddrC 7 0 0 c).result exampleModel = some a ∧
          (a = 0 ↔ 2 ^ 64 ∣ d.boxCtrlAddr + d.ctrlOffset + c * step) ∧
          (0 < d.boxCtrlAddr → d.boxCtrlAddr + 2287 < 2 ^ 64 → a ≠ 0)) ∧
        (∃ a, (getBoxCtrAddr 7 0 0 c).result exampleModel = some a ∧
          (a = 0 ↔ 2 ^ 64 ∣ d.boxCtrlAddr + d.ctrOffset + c * step) ∧
          (0 < d.boxCtrlAddr → d.boxCtrlAddr + 2287 < 2 ^ 64 → a ≠ 0)))) ∧
    (getBoxCtlAddr 7 0 0).result exampleModel = some 0x1000 ∧
    (getBoxNumRegs 7 0 0).result exampleModel = some 4 :=
  ⟨by decide,
   valid_position_sentinel exampleModel (by decide) 7 0 0 1 (by decide) (by decide) (by decide),
   by decide, by decide⟩

/-- C10, refuted as stated: the box with `accessType = 3` has register step 0, and for
`c = 1 < numRegs` the accessors return `0x1010` and `0x1020`, not 0. -/
theorem step_zero_address_nonzero :
    (oneBox reservedTypeBox).WF ∧
    0 < (oneBox reservedTypeBox).boxPMUs.length ∧
    ((oneBox reservedTypeBox).stored 7 0)[0]? = some reservedTypeBox ∧
    (registerStep 7 0 0).result (oneBox reservedTypeBox) = some 0 ∧
    1 < reservedTypeBox.numRegs ∧
    (getBoxCtlAddrC 7 0 0 1).result (oneBox reservedTypeBox) = some 0x1010 ∧
    (getBoxCtrAddr 7 0 0 1).result (oneBox reservedTypeBox) = some 0x1020 ∧
    (getBoxCtlAddrC 7 0 0 1).result (oneBox reservedTypeBox) ≠ some 0 ∧
    (getBoxCtrAddr 7 0 0 1).result (oneBox reservedTypeBox) ≠ some 0 := by
  decide

/-- C10, amended: for a valid triple whose `registerStep` is 0 and a register index
`c < numRegs`, the step drops out of the address: `getBoxCtlAddr(.., c)` returns
`boxCtrlAddr + ctrlOffset` and `getBoxCtrAddr(.., c)` returns `boxCtrlAddr + ctrOffset`,
in unsigned 64-bit arithmetic, whatever `c` is. -/
theorem step_zero_address (self : UncorePMUDiscovery) (boxType socket pos c : Nat)
    (d : BoxPMU) (hs : socket < self.boxPMUs.length)
    (hd : (self.stored boxType socket)[pos]? = some d)
    (hstep : (registerStep boxType socket pos).result self = some 0) (hc : c < d.numRegs) :
    (getBoxCtlAddrC boxType socket pos c).result self
      = some ((d.boxCtrlAddr + d.ctrlOffset) % 2 ^ 64) ∧
    (getBoxCtrAddr boxType socket pos c).result self
      = some ((d.boxCtrlAddr + d.ctrOffset) % 2 ^ 64) := by
  have h0 : stepOf d.accessType d.bitWidth = 0 := by
    simpa [Method.result, registerStep_eq _ _ _ _ _ hs hd] using hstep
  obtain ⟨r1, r2⟩ := reg_eq self boxType socket pos c d hs hd hc
  rw [h0] at r1 r2
  simp [Method.result, r1, r2]

/-- Registers 1 and 3 of the box with `accessType = 3` share the address of register 0. -/
theorem step_zero_address_witness :
    (0 < (oneBox reservedTypeBox).boxPMUs.length ∧
      ((oneBox reservedTypeBox).stored 7 0)[0]? = some reservedTypeBox ∧
      (registerStep 7 0 0).result (oneBox reservedTypeBox) = some 0 ∧
      3 < reservedTypeBox.numRegs) ∧
    ((getBoxCtlAddrC 7 0 0 3).result (oneBox reservedTypeBox)
        = some ((reservedTypeBox.boxCtrlAddr + reservedTypeBox.ctrlOffset) % 2 ^ 64) ∧
      (getBoxCtrAddr 7 0 0 3).result (oneBox reservedTypeBox)
        = some ((reservedTypeBox.boxCtrlAddr + reservedTypeBox.ctrOffset) % 2 ^ 64)) ∧
    (getBoxCtlAddrC 7 0 0 3).result (oneBox reservedTypeBox) = some 0x1010 ∧
    (getBoxCtlAddrC 7 0 0 0).result (oneBox reservedTypeBox) = some 0x1010 :=
  ⟨by decide,
   step_zero_address (oneBox reservedTypeBox) 7 0 0 3 reservedTypeBox (by decide) (by decide)
     (by decide) (by decide),
   by decide, by decide⟩

/-! ## Closed forms: every accessor reads the stored lists and leaves `touch` behind -/

theorem touch_of_ge (self : UncorePMUDiscovery) (boxType socket : Nat)
    (h : self.boxPMUs.length ≤ socket) : touch self boxType socket = self := by
  unfold touch
  rw [List.getElem?_eq_none h]

theorem touch_globalPMUs (self : UncorePMUDiscovery) (boxType socket : Nat) :
    (touch self boxType socket).globalPMUs = self.globalPMUs := by
  unfold touch
  cases h : self.boxPMUs[socket]? <;> rfl

theorem BoxPMUMap.lookup_index_getD (m : BoxPMUMap) (k k2 : Nat) :
    ((m.index k).2.lookup k2).getD [] = (m.lookup k2).getD [] := by
  unfold BoxPMUMap.index
  cases h : m.lookup k with
  | some v => rfl
  | none =>
    simp only [List.lookup_append]
    cases h2 : m.lookup k2 with
    | some v2 => rfl
    | none =>
      by_cases hk : k2 = k
      · subst hk
        simp
      · have hb : (k2 == k) = false := by simpa using hk
        simp [List.lookup, hb]

theorem touch_getElem_ne (self : UncorePMUDiscovery) (boxType socket s : Nat)
    (h : s ≠ socket) : (touch self boxType socket).boxPMUs[s]? = self.boxPMUs[s]? := by
  unfold touch
  cases hm : self.boxPMUs[socket]? with
  | none => rfl
  | some m => simp [List.getElem?_set, Ne.symm h]

theorem touch_getElem_self (self : UncorePMUDiscovery) (boxType socket : Nat)
    (m : BoxPMUMap) (hm : self.boxPMUs[socket]? = some m) :
    (touch self boxType socket).boxPMUs[socket]? = some (m.index boxType).2 := by
  have hlt : socket < self.boxPMUs.length := by
    by_contra hc
    rw [List.getElem?_eq_none (Nat.le_of_not_lt hc)] at hm
    cases hm
  unfold touch
  simp [hm, List.getElem?_set_self hlt]

/-- The lookup of any box type on any socket is unchanged by `touch`. -/
theorem stored_touch_any (self : UncorePMUDiscovery) (boxType socket b s : Nat) :
    (touch self boxType socket).stored b s = self.stored b s := by
  by_cases hs : s = socket
  · subst hs
    cases hm : self.boxPMUs[s]? with
    | none =>
      have hge : self.boxPMUs.length ≤ s := by
        by_contra hc
        have := List.getElem?_eq_getElem (Nat.lt_of_not_le hc)
        rw [hm] at this
        cases this
      rw [touch_of_ge _ _ _ hge]
    | some m =>
      unfold stored
      rw [touch_getElem_self _ _ _ m hm, hm]
      exact BoxPMUMap.lookup_index_getD m boxType b
  · unfold stored
    rw [touch_getElem_ne _ _ _ _ hs]

theorem getNumBoxes_run (self : UncorePMUDiscovery) (boxType socket : Nat) :
    getNumBoxes boxType socket self
      = some ((self.stored boxType socket).length, touch self boxType socket) := by
  by_cases hs : socket < self.boxPMUs.length
  · exact getNumBoxes_lt _ _ _ hs
  · have hge := Nat.le_of_not_lt hs
    rw [getNumBoxes_ge _ _ _ hge, stored_of_ge _ _ _ hge, touch_of_ge _ _ _ hge]
    rfl

theorem field_run (self : UncorePMUDiscovery) (boxType socket pos : Nat) :
    getBoxCtlAddr boxType socket pos self
      = some ((((self.stored boxType socket)[pos]?).map (fun d => d.boxCtrlAddr)).getD 0,
          touch self boxType socket) ∧
    getBoxAccessType boxType socket pos self
      = some ((((self.stored boxType socket)[pos]?).map
          (fun d => d.accessType)).getD unknownAccessType, touch self boxType socket) ∧
    getBoxNumRegs boxType socket pos self
      = some ((((self.stored boxType socket)[pos]?).map (fun d => d.numRegs)).getD 0,
          touch self boxType socket) := by
  by_cases hs : socket < self.boxPMUs.length
  · cases hd : (self.stored boxType socket)[pos]? with
    | none =>
      have hp : (self.stored boxType socket).length ≤ pos := List.getElem?_eq_none_iff.mp hd
      simpa using field_pos self boxType socket pos hs hp
    | some d => simpa using field_eq self boxType socket pos d hs hd
  · have hge := Nat.le_of_not_lt hs
    rw [stored_of_ge _ _ _ hge, touch_of_ge _ _ _ hge]
    simpa using field_ge self boxType socket pos hge

/-- The per-register accessors compute the address from the descriptor at the position,
if there is one and `c` is below its register count, and return 0 otherwise. -/
theorem reg_run (self : UncorePMUDiscovery) (boxType socket pos c : Nat) :
    getBoxCtlAddrC boxType socket pos c self
      = some ((((self.stored boxType socket)[pos]?).map (fun d =>
          if c < d.numRegs then
            (d.boxCtrlAddr + d.ctrlOffset + c * stepOf d.accessType d.bitWidth) % 2 ^ 64
          else 0)).getD 0, touch self boxType socket) ∧
    getBoxCtrAddr boxType socket pos c self
      = some ((((self.stored boxType socket)[pos]?).map (fun d =>
          if c < d.numRegs then
            (d.boxCtrlAddr + d.ctrOffset + c * stepOf d.accessType d.bitWidth) % 2 ^ 64
          else 0)).getD 0, touch self boxType socket) := by
  by_cases hs : socket < self.boxPMUs.length
  · cases hd : (self.stored boxType socket)[pos]? with
    | none =>
      have hp : (self.stored boxType socket).length ≤ pos := List.getElem?_eq_none_iff.mp hd
      simpa using reg_pos self boxType socket pos c hs hp
    | some d =>
      by_cases hc : c < d.numRegs
      · simpa [hc] using reg_eq self boxType socket pos c d hs hd hc
      · simpa [hc] using reg_ge_numRegs self boxType socket pos c d hs hd (Nat.le_of_not_lt hc)
  · have hge := Nat.le_of_not_lt hs
    rw [stored_of_ge _ _ _ hge, touch_of_ge _ _ _ hge]
    simpa using reg_ge self boxType socket pos c hge

theorem set_of_getElem? {α : Type} (l : List α) (i : Nat) (a : α) (h : l[i]? = some a) :
    l.set i a = l := by
  apply List.ext_getElem?
  intro n
  rw [List.getElem?_set]
  split
  · next hin =>
    subst hin
    split
    · exact h.symm
    · next hlt =>
      exact (List.getElem?_eq_none (Nat.le_of_not_lt hlt)).symm
  · rfl

theorem touch_of_lookup (self : UncorePMUDiscovery) (boxType socket : Nat) (m : BoxPMUMap)
    (v : BoxPMUs) (hm : self.boxPMUs[socket]? = some m) (hv : m.lookup boxType = some v) :
    touch self boxType socket = self := by
  unfold touch
  simp only [hm, BoxPMUMap.index, hv]
  rw [set_of_getElem? _ _ _ hm]

theorem touch_of_absent (self : UncorePMUDiscovery) (boxType socket : Nat) (m : BoxPMUMap)
    (hm : self.boxPMUs[socket]? = some m) (hv : m.lookup boxType = none) :
    (touch self boxType socket).boxPMUs[socket]? = some (m ++ [(boxType, [])]) := by
  rw [touch_getElem_self _ _ _ m hm]
  simp [BoxPMUMap.index, hv]

/-- Every accessor call returns, and leaves `touch` of its box type and socket behind. -/
theorem query_run (self : UncorePMUDiscovery) (q : Query) :
    ∃ v, q.run self = some (v, touch self q.boxType q.socket) := by
  cases q with
  | numBoxes b s => exact ⟨_, getNumBoxes_run self b s⟩
  | ctlAddr b s p => exact ⟨_, (field_run self b s p).1⟩
  | ctlAddrC b s p c => exact ⟨_, (reg_run self b s p c).1⟩
  | ctrAddr b s p c => exact ⟨_, (reg_run self b s p c).2⟩
  | accessType b s p => exact ⟨_, (field_run self b s p).2.1⟩
  | numRegs b s p => exact ⟨_, (field_run self b s p).2.2⟩

theorem registerStep_isSome_iff (self : UncorePMUDiscovery) (boxType socket pos : Nat) :
    registerStep boxType socket pos self ≠ none
      ↔ socket < self.boxPMUs.length ∧ pos < (self.stored boxType socket).length := by
  constructor
  · intro h
    by_cases hs : socket < self.boxPMUs.length
    · refine ⟨hs, ?_⟩
      by_contra hp
      apply h
      have hb : box boxType socket pos self = none := by
        unfold box
        simp [group_eq _ _ _ hs, List.getElem?_eq_none (Nat.le_of_not_lt hp)]
      simp [registerStep, hb]
    · exfalso
      apply h
      have hb : box boxType socket pos self = none := by
        unfold box group
        simp [List.getElem?_eq_none (Nat.le_of_not_lt hs)]
      simp [registerStep, hb]
  · rintro ⟨hs, hp⟩
    rw [registerStep_eq self boxType socket pos _ hs (List.getElem?_eq_getElem hp)]
    simp

/-! ## Frame, totality and rendering -/

/-- C11, refuted as stated: socket 0 of the example has no entry for box type 9; after
`getNumBoxes(9, 0)`, and after each positional accessor called with box type 9, its map
holds the new key 9 with an empty list, so the model is not the one before the call. -/
theorem query_inserts_key :
    (getNumBoxes 9 0).after exampleModel
      = some { boxPMUs := [[(7, [exampleBox]), (9, [])]], globalPMUs := [] } ∧
    (getNumBoxes 9 0).after exampleModel ≠ some exampleModel ∧
    (getBoxCtlAddr 9 0 0).after exampleModel ≠ some exampleModel ∧
    (getBoxCtlAddrC 9 0 0 0).after exampleModel ≠ some exampleModel ∧
    (getBoxCtrAddr 9 0 0 0).after exampleModel ≠ some exampleModel ∧
    (getBoxAccessType 9 0 0).after exampleModel ≠ some exampleModel ∧
    (getBoxNumRegs 9 0 0).after exampleModel ≠ some exampleModel := by
  decide

/-- C11, amended: every accessor call, with arbitrary arguments, returns and leaves a
model with the same global descriptors, the same number of sockets, the same maps on
every other socket and the same descriptor list under every box type of every socket.
The model is identical to the one before the call when the socket is out of range or the
socket's map has an entry for the box type; otherwise the call adds the box type to that
map's keys, with an empty list. -/
theorem query_frame (self : UncorePMUDiscovery) (q : Query) :
    ∃ self1, (q.run).after self = some self1 ∧
      self1.globalPMUs = self.globalPMUs ∧
      self1.boxPMUs.length = self.boxPMUs.length ∧
      (∀ b s, self1.stored b s = self.stored b s) ∧
      (∀ s, s ≠ q.socket → self1.boxPMUs[s]? = self.boxPMUs[s]?) ∧
      (self.boxPMUs.length ≤ q.socket → self1 = self) ∧
      (∀ m, self.boxPMUs[q.socket]? = some m →
        (m.lookup q.boxType ≠ none → self1 = self) ∧
        (m.lookup q.boxType = none →
          self1.boxPMUs[q.socket]? = some (m ++ [(q.boxType, [])]))) := by
  obtain ⟨v, hv⟩ := query_run self q
  refine ⟨touch self q.boxType q.socket, by simp [Method.after, hv], touch_globalPMUs _ _ _,
    touch_length _ _ _, fun b s => stored_touch_any _ _ _ b s,
    fun s hs => touch_getElem_ne _ _ _ s hs, touch_of_ge _ _ _, ?_⟩
  intro m hm
  refine ⟨?_, touch_of_absent _ _ _ m hm⟩
  intro hne
  cases hl : m.lookup q.boxType with
  | none => exact absurd hl hne
  | some v2 => exact touch_of_lookup _ _ _ m v2 hm hl

/-- C12: for every model and all arguments each public accessor returns a value, that is,
no vector indexing it evaluates, directly or through `registerStep`, is out of bounds;
`registerStep` on its own is in bounds exactly for the triples the gate admits. -/
theorem accessors_total (self : UncorePMUDiscovery) (boxType socket pos c : Nat) :
    getNumBoxes boxType socket self ≠ none ∧
    getBoxCtlAddr boxType socket pos self ≠ none ∧
    getBoxCtlAddrC boxType socket pos c self ≠ none ∧
    getBoxCtrAddr boxType socket pos c self ≠ none ∧
    getBoxAccessType boxType socket pos self ≠ none ∧
    getBoxNumRegs boxType socket pos self ≠ none ∧
    (registerStep boxType socket pos self ≠ none
      ↔ socket < self.boxPMUs.length ∧ pos < (self.stored boxType socket).length) := by
  obtain ⟨f1, f2, f3⟩ := field_run self boxType socket pos
  obtain ⟨r1, r2⟩ := reg_run self boxType socket pos c
  rw [getNumBoxes_run, f1, f2, f3, r1, r2]
  exact ⟨by simp, by simp, by simp, by simp, by simp, by simp,
    registerStep_isSome_iff self boxType socket pos⟩

/-- C13: `accessTypeStr` is defined on every input and gives "MSR" for 0, "MMIO" for 1,
"PCICFG" for 2 and "unknown" for every other value, 3 and 255 among them. -/
theorem accessTypeStr_total (t : Nat) :
    (t = 0 → accessTypeStr t = "MSR") ∧
    (t = 1 → accessTypeStr t = "MMIO") ∧
    (t = 2 → accessTypeStr t = "PCICFG") ∧
    (t ≠ 0 ∧ t ≠ 1 ∧ t ≠ 2 → accessTypeStr t = "unknown") ∧
    accessTypeStr 3 = "unknown" ∧
    accessTypeStr unknownAccessType = "unknown" ∧
    accessTypeStr (2 ^ 64 - 1) = "unknown" := by
  refine ⟨?_, ?_, ?_, ?_, by decide, by decide, by decide⟩
  · rintro rfl
    rfl
  · rintro rfl
    rfl
  · rintro rfl
    rfl
  · rintro ⟨h0, h1, h2⟩
    have e0 : ¬ t = MSR := h0
    have e1 : ¬ t = MMIO := h1
    have e2 : ¬ t = PCICFG := h2
    simp [accessTypeStr, e0, e1, e2]

/-! ## The table layout -/

theorem stored_oneBox (d : BoxPMU) : (oneBox d).stored d.boxType 0 = [d] := by
  simp [stored, oneBox]

theorem BoxPMU.decode_wf (w0 w1 w2 : Nat) : (BoxPMU.decode w0 w1 w2).WF := by
  unfold BoxPMU.WF BoxPMU.decode bitField
  simp only []
  omega

theorem BoxPMU.pack_decode (w0 w1 w2 : Nat) (h0 : w0 < 2 ^ 64) (h1 : w1 < 2 ^ 64)
    (h2 : w2 < 2 ^ 64) : BoxPMU.pack (BoxPMU.decode w0 w1 w2) = (w0, w1, w2) := by
  unfold BoxPMU.pack BoxPMU.decode bitField
  simp only [Prod.mk.injEq]
  refine ⟨?_, ?_, ?_⟩ <;> omega

theorem GlobalPMU.global_decode_wf (w0 w1 w2 : Nat) :
    GlobalPMU.WF (GlobalPMU.decode w0 w1 w2) := by
  unfold GlobalPMU.WF GlobalPMU.decode bitField
  simp only []
  omega

theorem GlobalPMU.global_pack_decode (w0 w1 w2 : Nat) (h0 : w0 < 2 ^ 64) (h1 : w1 < 2 ^ 64)
    (h2 : w2 < 2 ^ 64) : GlobalPMU.pack (GlobalPMU.decode w0 w1 w2) = (w0, w1, w2) := by
  unfold GlobalPMU.pack GlobalPMU.decode bitField
  simp only [Prod.mk.injEq]
  refine ⟨?_, ?_, ?_⟩ <;> omega

theorem BoxPMU.members_decode (w0 w1 w2 : Nat) :
    BoxPMU.members (BoxPMU.decode w0 w1 w2)
      = List.zipWith cutWord BoxPMU.widths [w0, w1, w2] := by
  simp only [BoxPMU.members, BoxPMU.decode, BoxPMU.widths, List.zipWith, cutWord, bitField,
    List.cons.injEq, and_true]
  refine ⟨⟨?_, ?_, ?_, ?_, ?_, ?_, ?_⟩, ?_, ⟨?_, ?_, ?_⟩⟩ <;> first | trivial | omega

theorem GlobalPMU.global_members_decode (w0 w1 w2 : Nat) :
    GlobalPMU.members (GlobalPMU.decode w0 w1 w2)
      = List.zipWith cutWord GlobalPMU.widths [w0, w1, w2] := by
  simp only [GlobalPMU.members, GlobalPMU.decode, GlobalPMU.widths, List.zipWith, cutWord,
    bitField, List.cons.injEq, and_true]
  refine ⟨⟨?_, ?_, ?_, ?_, ?_⟩, ?_, ⟨?_, ?_, ?_⟩⟩ <;> first | trivial | omega

theorem BoxPMU.join_members (b : BoxPMU) :
    List.zipWith joinWord BoxPMU.widths (BoxPMU.members b)
      = [(BoxPMU.pack b).1, (BoxPMU.pack b).2.1, (BoxPMU.pack b).2.2] := by
  simp only [BoxPMU.members, BoxPMU.pack, BoxPMU.widths, List.zipWith, joinWord,
    List.cons.injEq, and_true]
  refine ⟨?_, ?_, ?_⟩ <;> first | trivial | omega

theorem GlobalPMU.global_join_members (g : GlobalPMU) :
    List.zipWith joinWord GlobalPMU.widths (GlobalPMU.members g)
      = [(GlobalPMU.pack g).1, (GlobalPMU.pack g).2.1, (GlobalPMU.pack g).2.2] := by
  simp only [GlobalPMU.members, GlobalPMU.pack, GlobalPMU.widths, List.zipWith, joinWord,
    List.cons.injEq, and_true]
  refine ⟨?_, ?_, ?_⟩ <;> first | trivial | omega

/-- C14: for every table entry of three 64-bit words, the decoded `BoxPMU` and the decoded
`GlobalPMU` have every member within its declared width and equal to its own bit range of
the input: member by member at the stated bit offset and width, and as a whole the
members in declaration order are the declared widths cut from each word starting at the
least-significant bit. Re-packing the decoded members (reserved ones included), which
joins the members at the declared widths in declaration order, gives back the three
words; the declared widths of each word sum to 64; and the accessors return for the
decoded descriptor the bits of the input: word 1 for `boxCtrlAddr`, bits 0-7 of word 0
for `numRegs`, bits 62-63 for `accessType`. -/
theorem table_round_trip (w0 w1 w2 : Nat) (h0 : w0 < 2 ^ 64) (h1 : w1 < 2 ^ 64)
    (h2 : w2 < 2 ^ 64) :
    (BoxPMU.decode w0 w1 w2).WF ∧
    BoxPMU.pack (BoxPMU.decode w0 w1 w2) = (w0, w1, w2) ∧
    GlobalPMU.WF (GlobalPMU.decode w0 w1 w2) ∧
    GlobalPMU.pack (GlobalPMU.decode w0 w1 w2) = (w0, w1, w2) ∧
    (∀ ws ∈ BoxPMU.widths, ws.sum = 64) ∧
    (∀ ws ∈ GlobalPMU.widths, ws.sum = 64) ∧
    (getBoxCtlAddr (w2 % 2 ^ 16) 0 0).result (oneBox (BoxPMU.decode w0 w1 w2)) = some w1 ∧
    (getBoxNumRegs (w2 % 2 ^ 16) 0 0).result (oneBox (BoxPMU.decode w0 w1 w2))
      = some (w0 % 2 ^ 8) ∧
    (getBoxAccessType (w2 % 2 ^ 16) 0 0).result (oneBox (BoxPMU.decode w0 w1 w2))
      = some (w0 / 2 ^ 62) ∧
    (BoxPMU.decode w0 w1 w2).numRegs = w0 / 2 ^ 0 % 2 ^ 8 ∧
    (BoxPMU.decode w0 w1 w2).ctrlOffset = w0 / 2 ^ 8 % 2 ^ 8 ∧
    (BoxPMU.decode w0 w1 w2).bitWidth = w0 / 2 ^ 16 % 2 ^ 8 ∧
    (BoxPMU.decode w0 w1 w2).ctrOffset = w0 / 2 ^ 24 % 2 ^ 8 ∧
    (BoxPMU.decode w0 w1 w2).statusOffset = w0 / 2 ^ 32 % 2 ^ 8 ∧
    (BoxPMU.decode w0 w1 w2).reserved1 = w0 / 2 ^ 40 % 2 ^ 22 ∧
    (BoxPMU.decode w0 w1 w2).accessType = w0 / 2 ^ 62 % 2 ^ 2 ∧
    (BoxPMU.decode w0 w1 w2).boxCtrlAddr = w1 / 2 ^ 0 % 2 ^ 64 ∧
    (BoxPMU.decode w0 w1 w2).boxType = w2 / 2 ^ 0 % 2 ^ 16 ∧
    (BoxPMU.decode w0 w1 w2).boxID = w2 / 2 ^ 16 % 2 ^ 16 ∧
    (BoxPMU.decode w0 w1 w2).reserved2 = w2 / 2 ^ 32 % 2 ^ 32 ∧
    (GlobalPMU.decode w0 w1 w2).type = w0 / 2 ^ 0 % 2 ^ 8 ∧
    (GlobalPMU.decode w0 w1 w2).stride = w0 / 2 ^ 8 % 2 ^ 8 ∧
    (GlobalPMU.decode w0 w1 w2).maxUnits = w0 / 2 ^ 16 % 2 ^ 10 ∧
    (GlobalPMU.decode w0 w1 w2).reserved1 = w0 / 2 ^ 26 % 2 ^ 36 ∧
    (GlobalPMU.decode w0 w1 w2).accessType = w0 / 2 ^ 62 % 2 ^ 2 ∧
    (GlobalPMU.decode w0 w1 w2).globalCtrlAddr = w1 / 2 ^ 0 % 2 ^ 64 ∧
    (GlobalPMU.decode w0 w1 w2).statusOffset = w2 / 2 ^ 0 % 2 ^ 8 ∧
    (GlobalPMU.decode w0 w1 w2).numStatus = w2 / 2 ^ 8 % 2 ^ 16 ∧
    (GlobalPMU.decode w0 w1 w2).reserved2 = w2 / 2 ^ 24 % 2 ^ 40 ∧
    BoxPMU.members (BoxPMU.decode w0 w1 w2)
      = List.zipWith cutWord BoxPMU.widths [w0, w1, w2] ∧
    GlobalPMU.members (GlobalPMU.decode w0 w1 w2)
      = List.zipWith cutWord GlobalPMU.widths [w0, w1, w2] ∧
    List.zipWith joinWord BoxPMU.widths (BoxPMU.members (BoxPMU.decode w0 w1 w2))
      = [w0, w1, w2] ∧
    List.zipWith joinWord GlobalPMU.widths (GlobalPMU.members (GlobalPMU.decode w0 w1 w2))
      = [w0, w1, w2] ∧
    (∀ b : BoxPMU, List.zipWith joinWord BoxPMU.widths (BoxPMU.members b)
      = [(BoxPMU.pack b).1, (BoxPMU.pack b).2.1, (BoxPMU.pack b).2.2]) ∧
    (∀ g : GlobalPMU, List.zipWith joinWord GlobalPMU.widths (GlobalPMU.members g)
      = [(GlobalPMU.pack g).1, (GlobalPMU.pack g).2.1, (GlobalPMU.pack g).2.2]) := by
  have hkey : (BoxPMU.decode w0 w1 w2).boxType = w2 % 2 ^ 16 := by
    simp [BoxPMU.decode, bitField]
  have hst : ((oneBox (BoxPMU.decode w0 w1 w2)).stored (w2 % 2 ^ 16) 0)[0]?
      = some (BoxPMU.decode w0 w1 w2) := by
    rw [← hkey, stored_oneBox]
    rfl
  obtain ⟨f1, f2, f3⟩ := field_eq (oneBox (BoxPMU.decode w0 w1 w2)) (w2 % 2 ^ 16) 0 0
    (BoxPMU.decode w0 w1 w2) (by simp [oneBox]) hst
  refine ⟨BoxPMU.decode_wf w0 w1 w2, BoxPMU.pack_decode w0 w1 w2 h0 h1 h2,
    GlobalPMU.global_decode_wf w0 w1 w2, GlobalPMU.global_pack_decode w0 w1 w2 h0 h1 h2,
    by decide, by decide, ?_, ?_, ?_,
    rfl, rfl, rfl, rfl, rfl, rfl, rfl, rfl, rfl, rfl,
    rfl, rfl, rfl, rfl, rfl, rfl, rfl, rfl, rfl, rfl,
    BoxPMU.members_decode w0 w1 w2, GlobalPMU.global_members_decode w0 w1 w2, ?_, ?_,
    BoxPMU.join_members, GlobalPMU.global_join_members⟩
  · have e : (BoxPMU.decode w0 w1 w2).boxCtrlAddr = w1 := by
      show w1 / 2 ^ 0 % 2 ^ 64 = w1
      omega
    rw [Method.result, f1, e]
    rfl
  · have e : (BoxPMU.decode w0 w1 w2).numRegs = w0 % 2 ^ 8 := by
      show w0 / 2 ^ 0 % 2 ^ 8 = w0 % 2 ^ 8
      omega
    rw [Method.result, f3, e]
    rfl
  · have e : (BoxPMU.decode w0 w1 w2).accessType = w0 / 2 ^ 62 := by
      show w0 / 2 ^ 62 % 2 ^ 2 = w0 / 2 ^ 62
      omega
    rw [Method.result, f2, e]
    rfl
  · rw [BoxPMU.join_members, BoxPMU.pack_decode w0 w1 w2 h0 h1 h2]
  · rw [GlobalPMU.global_join_members, GlobalPMU.global_pack_decode w0 w1 w2 h0 h1 h2]

/-- The entry `(0x4000000020401004, 0x1000, 7)` is the example box as an MMIO unit. -/
theorem table_round_trip_witness :
    ((0x4000000020401004 : Nat) < 2 ^ 64 ∧ (0x1000 : Nat) < 2 ^ 64 ∧ (7 : Nat) < 2 ^ 64) ∧
    ((BoxPMU.decode 0x4000000020401004 0x1000 7).WF ∧
    BoxPMU.pack (BoxPMU.decode 0x4000000020401004 0x1000 7) = (0x4000000020401004, 0x1000, 7) ∧
    GlobalPMU.WF (GlobalPMU.decode 0x4000000020401004 0x1000 7) ∧
    GlobalPMU.pack (GlobalPMU.decode 0x4000000020401004 0x1000 7) = (0x4000000020401004, 0x1000, 7) ∧
    (∀ ws ∈ BoxPMU.widths, ws.sum = 64) ∧
    (∀ ws ∈ GlobalPMU.widths, ws.sum = 64) ∧
    (getBoxCtlAddr (7 % 2 ^ 16) 0 0).result (oneBox (BoxPMU.decode 0x4000000020401004 0x1000 7)) = some 0x1000 ∧
    (getBoxNumRegs (7 % 2 ^ 16) 0 0).result (oneBox (BoxPMU.decode 0x4000000020401004 0x1000 7))
      = some (0x4000000020401004 % 2 ^ 8) ∧
    (getBoxAccessType (7 % 2 ^ 16) 0 0).result (oneBox (BoxPMU.decode 0x4000000020401004 0x1000 7))
      = some (0x4000000020401004 / 2 ^ 62) ∧
    (BoxPMU.decode 0x4000000020401004 0x1000 7).numRegs = 0x4000000020401004 / 2 ^ 0 % 2 ^ 8 ∧
    (BoxPMU.decode 0x4000000020401004 0x1000 7).ctrlOffset = 0x4000000020401004 / 2 ^ 8 % 2 ^ 8 ∧
    (BoxPMU.decode 0x4000000020401004 0x1000 7).bitWidth = 0x4000000020401004 / 2 ^ 16 % 2 ^ 8 ∧
    (BoxPMU.decode 0x4000000020401004 0x1000 7).ctrOffset = 0x4000000020401004 / 2 ^ 24 % 2 ^ 8 ∧
    (BoxPMU.decode 0x4000000020401004 0x1000 7).statusOffset = 0x4000000020401004 / 2 ^ 32 % 2 ^ 8 ∧
    (BoxPMU.decode 0x4000000020401004 0x1000 7).reserved1 = 0x4000000020401004 / 2 ^ 40 % 2 ^ 22 ∧
    (BoxPMU.decode 0x4000000020401004 0x1000 7).accessType = 0x4000000020401004 / 2 ^ 62 % 2 ^ 2 ∧
    (BoxPMU.decode 0x4000000020401004 0x1000 7).boxCtrlAddr = 0x1000 / 2 ^ 0 % 2 ^ 64 ∧
    (BoxPMU.decode 0x4000000020401004 0x1000 7).boxType = 7 / 2 ^ 0 % 2 ^ 16 ∧
    (BoxPMU.decode 0x4000000020401004 0x1000 7).boxID = 7 / 2 ^ 16 % 2 ^ 16 ∧
    (BoxPMU.decode 0x4000000020401004 0x1000 7).reserved2 = 7 / 2 ^ 32 % 2 ^ 32 ∧
    (GlobalPMU.decode 0x4000000020401004 0x1000 7).type = 0x4000000020401004 / 2 ^ 0 % 2 ^ 8 ∧
    (GlobalPMU.decode 0x4000000020401004 0x1000 7).stride = 0x4000000020401004 / 2 ^ 8 % 2 ^ 8 ∧
    (GlobalPMU.decode 0x4000000020401004 0x1000 7).maxUnits = 0x4000000020401004 / 2 ^ 16 % 2 ^ 10 ∧
    (GlobalPMU.decode 0x4000000020401004 0x1000 7).reserved1 = 0x4000000020401004 / 2 ^ 26 % 2 ^ 36 ∧
    (GlobalPMU.decode 0x4000000020401004 0x1000 7).accessType = 0x4000000020401004 / 2 ^ 62 % 2 ^ 2 ∧
    (GlobalPMU.decode 0x4000000020401004 0x1000 7).globalCtrlAddr = 0x1000 / 2 ^ 0 % 2 ^ 64 ∧
    (GlobalPMU.decode 0x4000000020401004 0x1000 7).statusOffset = 7 / 2 ^ 0 % 2 ^ 8 ∧
    (GlobalPMU.decode 0x4000000020401004 0x1000 7).numStatus = 7 / 2 ^ 8 % 2 ^ 16 ∧
    (GlobalPMU.decode 0x4000000020401004 0x1000 7).reserved2 = 7 / 2 ^ 24 % 2 ^ 40 ∧
    BoxPMU.members (BoxPMU.decode 0x4000000020401004 0x1000 7)
      = List.zipWith cutWord BoxPMU.widths [0x4000000020401004, 0x1000, 7] ∧
    GlobalPMU.members (GlobalPMU.decode 0x4000000020401004 0x1000 7)
      = List.zipWith cutWord GlobalPMU.widths [0x4000000020401004, 0x1000, 7] ∧
    List.zipWith joinWord BoxPMU.widths (BoxPMU.members (BoxPMU.decode 0x4000000020401004 0x1000 7))
      = [0x4000000020401004, 0x1000, 7] ∧
    List.zipWith joinWord GlobalPMU.widths (GlobalPMU.members (GlobalPMU.decode 0x4000000020401004 0x1000 7))
      = [0x4000000020401004, 0x1000, 7] ∧
    (∀ b : BoxPMU, List.zipWith joinWord BoxPMU.widths (BoxPMU.members b)
      = [(BoxPMU.pack b).1, (BoxPMU.pack b).2.1, (BoxPMU.pack b).2.2]) ∧
    (∀ g : GlobalPMU, List.zipWith joinWord GlobalPMU.widths (GlobalPMU.members g)
      = [(GlobalPMU.pack g).1, (GlobalPMU.pack g).2.1, (GlobalPMU.pack g).2.2])) ∧
    BoxPMU.decode 0x4000000020401004 0x1000 7 = { exampleBox with accessType := 1 } ∧
    (getBoxCtlAddr 7 0 0).result (oneBox (BoxPMU.decode 0x4000000020401004 0x1000 7))
      = some 0x1000 :=
  ⟨by decide,
   table_round_trip 0x4000000020401004 0x1000 7 (by decide) (by decide) (by decide),
   by decide, by decide⟩

/-- C15: for a valid triple and `c + 1 < numRegs`, the addresses of registers `c + 1` and
`c` differ, in unsigned 64-bit arithmetic, by the value `registerStep` returns, for the
counter accessor and for the control accessor. -/
theorem step_is_increment (self : UncorePMUDiscovery) (boxType socket pos c : Nat)
    (d : BoxPMU) (hs : socket < self.boxPMUs.length)
    (hd : (self.stored boxType socket)[pos]? = some d) (hc : c + 1 < d.numRegs) :
    ∃ step a0 a1 b0 b1,
      (registerStep boxType socket pos).result self = some step ∧
      (getBoxCtrAddr boxType socket pos c).result self = some a0 ∧
      (getBoxCtrAddr boxType socket pos (c + 1)).result self = some a1 ∧
      (a1 + 2 ^ 64 - a0) % 2 ^ 64 = step ∧
      (getBoxCtlAddrC boxType socket pos c).result self = some b0 ∧
      (getBoxCtlAddrC boxType socket pos (c + 1)).result self = some b1 ∧
      (b1 + 2 ^ 64 - b0) % 2 ^ 64 = step := by
  obtain ⟨l0, r0⟩ := reg_eq self boxType socket pos c d hs hd (by omega)
  obtain ⟨l1, r1⟩ := reg_eq self boxType socket pos (c + 1) d hs hd hc
  have hstep := stepOf_le d.accessType d.bitWidth
  have hmul : (c + 1) * stepOf d.accessType d.bitWidth
      = c * stepOf d.accessType d.bitWidth + stepOf d.accessType d.bitWidth := by
    rw [Nat.add_mul, Nat.one_mul]
  refine ⟨stepOf d.accessType d.bitWidth, _, _, _, _,
    by simp [Method.result, registerStep_eq _ _ _ _ _ hs hd],
    by rw [Method.result, r0]; rfl, by rw [Method.result, r1]; rfl, ?_,
    by rw [Method.result, l0]; rfl, by rw [Method.result, l1]; rfl, ?_⟩
  · rw [hmul]
    generalize c * stepOf d.accessType d.bitWidth = x
    generalize stepOf d.accessType d.bitWidth = st at hstep
    omega
  · rw [hmul]
    generalize c * stepOf d.accessType d.bitWidth = x
    generalize stepOf d.accessType d.bitWidth = st at hstep
    omega

/-- Registers 2 and 3 of the 32-bit MMIO box are 4 apart. -/
theorem step_is_increment_witness :
    (0 < (oneBox mmioBox).boxPMUs.length ∧ ((oneBox mmioBox).stored 7 0)[0]? = some mmioBox ∧
      2 + 1 < mmioBox.numRegs) ∧
    (∃ step a0 a1 b0 b1,
      (registerStep 7 0 0).result (oneBox mmioBox) = some step ∧
      (getBoxCtrAddr 7 0 0 2).result (oneBox mmioBox) = some a0 ∧
      (getBoxCtrAddr 7 0 0 (2 + 1)).result (oneBox mmioBox) = some a1 ∧
      (a1 + 2 ^ 64 - a0) % 2 ^ 64 = step ∧
      (getBoxCtlAddrC 7 0 0 2).result (oneBox mmioBox) = some b0 ∧
      (getBoxCtlAddrC 7 0 0 (2 + 1)).result (oneBox mmioBox) = some b1 ∧
      (b1 + 2 ^ 64 - b0) % 2 ^ 64 = step) ∧
    (getBoxCtrAddr 7 0 0 2).result (oneBox mmioBox) = some 0x1028 ∧
    (getBoxCtrAddr 7 0 0 3).result (oneBox mmioBox) = some 0x102c :=
  ⟨by decide,
   step_is_increment (oneBox mmioBox) 7 0 0 2 mmioBox (by decide) (by decide) (by decide),
   by decide, by decide⟩

/-- C16: for a valid triple whose descriptor has access type MMIO or PCICFG and
`bitWidth ≤ 64` (0 included), `registerStep` returns the least `t` among 1, 2, 4, 8 with
`8 * t ≥ bitWidth`, which is also the least power of two with that property. -/
theorem step_is_rounded_byte_size (self : UncorePMUDiscovery) (boxType socket pos : Nat)
    (d : BoxPMU) (hs : socket < self.boxPMUs.length)
    (hd : (self.stored boxType socket)[pos]? = some d)
    (hat : d.accessType = MMIO ∨ d.accessType = PCICFG) (hw : d.bitWidth ≤ 64) :
    ∃ step, (registerStep boxType socket pos).result self = some step ∧
      (step = 1 ∨ step = 2 ∨ step = 4 ∨ step = 8) ∧
      d.bitWidth ≤ 8 * step ∧
      (∀ t, (t = 1 ∨ t = 2 ∨ t = 4 ∨ t = 8) → d.bitWidth ≤ 8 * t → step ≤ t) ∧
      (∀ k, d.bitWidth ≤ 8 * 2 ^ k → step ≤ 2 ^ k) := by
  refine ⟨stepOf d.accessType d.bitWidth,
    by simp [Method.result, registerStep_eq _ _ _ _ _ hs hd], ?_⟩
  have hne : ¬ d.accessType = MSR := by
    unfold MSR
    rcases hat with h | h <;> rw [h] <;> decide
  have hor : d.accessType = PCICFG ∨ d.accessType = MMIO := hat.symm
  have hval : stepOf d.accessType d.bitWidth
      = if d.bitWidth ≤ 8 then 1 else if d.bitWidth ≤ 16 then 2
        else if d.bitWidth ≤ 32 then 4 else 8 := by
    unfold stepOf
    rw [if_neg hne, if_pos hor]
    split_ifs <;> rfl
  rw [hval]
  refine ⟨?_, ?_, ?_, ?_⟩
  · split_ifs <;> simp
  · split_ifs <;> omega
  · intro t ht hb
    split_ifs <;> omega
  · intro k hb
    have hk : k = 0 ∨ k = 1 ∨ k = 2 ∨ 3 ≤ k := by omega
    rcases hk with rfl | rfl | rfl | h3
    · split_ifs <;> omega
    · split_ifs <;> omega
    · split_ifs <;> omega
    · have h8 : 2 ^ 3 ≤ 2 ^ k := Nat.pow_le_pow_right (by decide) h3
      split_ifs <;> omega

/-- The 9-bit PCICFG box has step 2; a width of 0 gives step 1. -/
theorem step_is_rounded_byte_size_witness :
    (0 < (oneBox pcicfgBox).boxPMUs.length ∧
      ((oneBox pcicfgBox).stored 7 0)[0]? = some pcicfgBox ∧
      ( pcicfgBox.accessType = MMIO ∨ pcicfgBox.accessType = PCICFG) ∧
      pcicfgBox.bitWidth ≤ 64) ∧
    (∃ step, (registerStep 7 0 0).result (oneBox pcicfgBox) = some step ∧
      (step = 1 ∨ step = 2 ∨ step = 4 ∨ step = 8) ∧
      pcicfgBox.bitWidth ≤ 8 * step ∧
      (∀ t, (t = 1 ∨ t = 2 ∨ t = 4 ∨ t = 8) → pcicfgBox.bitWidth ≤ 8 * t → step ≤ t) ∧
      (∀ k, pcicfgBox.bitWidth ≤ 8 * 2 ^ k → step ≤ 2 ^ k)) ∧
    (registerStep 7 0 0).result (oneBox pcicfgBox) = some 2 ∧
    (registerStep 7 0 0).result (oneBox { mmioBox with bitWidth := 0 }) = some 1 :=
  ⟨by decide,
   step_is_rounded_byte_size (oneBox pcicfgBox) 7 0 0 pcicfgBox (by decide) (by decide)
     (by decide) (by decide),
   by decide, by decide⟩

/-! ## Sequences of calls -/

/-- What a call returns is determined by the stored descriptor lists. -/
theorem query_result_congr (self self1 : UncorePMUDiscovery)
    (h : ∀ b s, self1.stored b s = self.stored b s) (q : Query) :
    (q.run).result self1 = (q.run).result self := by
  cases q with
  | numBoxes b s =>
    simp only [Query.run, Method.result, getNumBoxes_run, h]
    rfl
  | ctlAddr b s p =>
    simp only [Query.run, Method.result, (field_run _ b s p).1, h]
    rfl
  | ctlAddrC b s p c =>
    simp only [Query.run, Method.result, (reg_run _ b s p c).1, h]
    rfl
  | ctrAddr b s p c =>
    simp only [Query.run, Method.result, (reg_run _ b s p c).2, h]
    rfl
  | accessType b s p =>
    simp only [Query.run, Method.result, (field_run _ b s p).2.1, h]
    rfl
  | numRegs b s p =>
    simp only [Query.run, Method.result, (field_run _ b s p).2.2, h]
    rfl

/-- A sequence of calls runs to the end and leaves every stored descriptor list as it was. -/
theorem runAll_stored (qs : List Query) (self : UncorePMUDiscovery) :
    ∃ self1, runAll qs self = some self1 ∧ ∀ b s, self1.stored b s = self.stored b s := by
  induction qs generalizing self with
  | nil => exact ⟨self, rfl, fun _ _ => rfl⟩
  | cons q qs ih =>
    obtain ⟨v, hv⟩ := query_run self q
    obtain ⟨self2, h2, hst⟩ := ih (touch self q.boxType q.socket)
    refine ⟨self2, ?_, ?_⟩
    · simp only [runAll, hv]
      exact h2
    · intro b s
      rw [hst b s, stored_touch_any]

/-- C17: for every model, every accessor call `q` and every finite sequence `qs` of
accessor calls with arbitrary arguments, the sequence runs to the end, and `q` then
returns a value, the same value it returns on the original model. -/
theorem queries_pure (self : UncorePMUDiscovery) (qs : List Query) (q : Query) :
    ∃ self1 v, runAll qs self = some self1 ∧
      (q.run).result self1 = some v ∧ (q.run).result self = some v := by
  obtain ⟨self1, hrun, hst⟩ := runAll_stored qs self
  obtain ⟨v, hv⟩ := query_run self q
  have hres : (q.run).result self = some v := by
    simp [Method.result, hv]
  exact ⟨self1, v, hrun, by rw [query_result_congr self self1 hst q, hres], hres⟩

/-! ## Address arithmetic -/

/-- C18: for a model whose descriptors respect the bit-field widths, a valid triple with
nonzero `registerStep` and two different register indices below `numRegs`, the control
addresses differ and the counter addresses differ, wrap-around of the 64-bit sum
included. -/
theorem reg_addresses_distinct (self : UncorePMUDiscovery) (hwf : self.WF)
    (boxType socket pos c1 c2 step : Nat) (d : BoxPMU) (hs : socket < self.boxPMUs.length)
    (hd : (self.stored boxType socket)[pos]? = some d)
    (hstep : (registerStep boxType socket pos).result self = some step) (hne : step ≠ 0)
    (h1 : c1 < d.numRegs) (h2 : c2 < d.numRegs) (h12 : c1 ≠ c2) :
    (∃ a1 a2, (getBoxCtlAddrC boxType socket pos c1).result self = some a1 ∧
      (getBoxCtlAddrC boxType socket pos c2).result self = some a2 ∧ a1 ≠ a2) ∧
    (∃ a1 a2, (getBoxCtrAddr boxType socket pos c1).result self = some a1 ∧
      (getBoxCtrAddr boxType socket pos c2).result self = some a2 ∧ a1 ≠ a2) := by
  have hst : stepOf d.accessType d.bitWidth = step := by
    simpa [Method.result, registerStep_eq _ _ _ _ _ hs hd] using hstep
  obtain ⟨l1, r1⟩ := reg_eq self boxType socket pos c1 d hs hd h1
  obtain ⟨l2, r2⟩ := reg_eq self boxType socket pos c2 d hs hd h2
  rw [hst] at l1 r1 l2 r2
  have hle : step ≤ 8 := hst ▸ stepOf_le d.accessType d.bitWidth
  have hn : d.numRegs < 2 ^ 8 := (wf_of_stored self hwf _ _ _ d hd).1
  have hx1 : c1 * step ≤ 254 * 8 := Nat.mul_le_mul (by omega) hle
  have hx2 : c2 * step ≤ 254 * 8 := Nat.mul_le_mul (by omega) hle
  have hx : c1 * step ≠ c2 * step := by
    intro he
    exact h12 (Nat.eq_of_mul_eq_mul_right (Nat.pos_of_ne_zero hne) he)
  refine ⟨⟨_, _, by rw [Method.result, l1]; rfl, by rw [Method.result, l2]; rfl, ?_⟩,
    ⟨_, _, by rw [Method.result, r1]; rfl, by rw [Method.result, r2]; rfl, ?_⟩⟩
  · generalize c1 * step = x1 at hx1 hx
    generalize c2 * step = x2 at hx2 hx
    omega
  · generalize c1 * step = x1 at hx1 hx
    generalize c2 * step = x2 at hx2 hx
    omega

/-- Registers 0 and 1 of the box near the top of the address space: the control address
of register 1 wraps around to 2 and differs from that of register 0. -/
theorem reg_addresses_distinct_witness :
    ((oneBox wrapBox).WF ∧ 0 < (oneBox wrapBox).boxPMUs.length ∧
      ((oneBox wrapBox).stored 7 0)[0]? = some wrapBox ∧
      (registerStep 7 0 0).result (oneBox wrapBox) = some 4 ∧ 4 ≠ 0 ∧
      0 < wrapBox.numRegs ∧ 1 < wrapBox.numRegs ∧ 0 ≠ 1) ∧
    ((∃ a1 a2, (getBoxCtlAddrC 7 0 0 0).result (oneBox wrapBox) = some a1 ∧
      (getBoxCtlAddrC 7 0 0 1).result (oneBox wrapBox) = some a2 ∧ a1 ≠ a2) ∧
    (∃ a1 a2, (getBoxCtrAddr 7 0 0 0).result (oneBox wrapBox) = some a1 ∧
      (getBoxCtrAddr 7 0 0 1).result (oneBox wrapBox) = some a2 ∧ a1 ≠ a2)) ∧
    (getBoxCtlAddrC 7 0 0 0).result (oneBox wrapBox) = some (2 ^ 64 - 2) ∧
    (getBoxCtlAddrC 7 0 0 1).result (oneBox wrapBox) = some 2 :=
  ⟨by decide,
   reg_addresses_distinct (oneBox wrapBox) (by decide) 7 0 0 0 1 4 wrapBox (by decide)
     (by decide) (by decide) (by decide) (by decide) (by decide) (by decide),
   by decide, by decide⟩

/-- C19: for a model whose descriptors respect the bit-field widths, a valid triple and
`c < numRegs`, the product `c * registerStep` is at most 2032 and each offset plus the
product at most 2287; when `boxCtrlAddr + 2287 < 2 ^ 64` both per-register accessors
return the exact sum, without wrap-around, and the result is at least `boxCtrlAddr`. -/
theorem address_no_wrap (self : UncorePMUDiscovery) (hwf : self.WF)
    (boxType socket pos c : Nat) (d : BoxPMU) (hs : socket < self.boxPMUs.length)
    (hd : (self.stored boxType socket)[pos]? = some d) (hc : c < d.numRegs) :
    ∃ step, (registerStep boxType socket pos).result self = some step ∧
      c * step ≤ 254 * 8 ∧
      d.ctrlOffset + c * step ≤ 255 + 2032 ∧
      d.ctrOffset + c * step ≤ 255 + 2032 ∧
      (d.boxCtrlAddr + 2287 < 2 ^ 64 →
        (∃ a, (getBoxCtlAddrC boxType socket pos c).result self = some a ∧
          a = d.boxCtrlAddr + d.ctrlOffset + c * step ∧ d.boxCtrlAddr ≤ a) ∧
        (∃ a, (getBoxCtrAddr boxType socket pos c).result self = some a ∧
          a = d.boxCtrlAddr + d.ctrOffset + c * step ∧ d.boxCtrlAddr ≤ a)) := by
  obtain ⟨w1, w2, -, w4, -⟩ := wf_of_stored self hwf _ _ _ d hd
  have hle := stepOf_le d.accessType d.bitWidth
  have hx : c * stepOf d.accessType d.bitWidth ≤ 254 * 8 := Nat.mul_le_mul (by omega) hle
  obtain ⟨l, r⟩ := reg_eq self boxType socket pos c d hs hd hc
  refine ⟨stepOf d.accessType d.bitWidth,
    by simp [Method.result, registerStep_eq _ _ _ _ _ hs hd], hx, by omega, by omega, ?_⟩
  intro hb
  refine ⟨⟨_, by rw [Method.result, l]; rfl, ?_, ?_⟩, ⟨_, by rw [Method.result, r]; rfl, ?_, ?_⟩⟩
  · exact Nat.mod_eq_of_lt (by omega)
  · rw [Nat.mod_eq_of_lt (by omega)]
    omega
  · exact Nat.mod_eq_of_lt (by omega)
  · rw [Nat.mod_eq_of_lt (by omega)]
    omega

/-- Register 3 of the 32-bit MMIO box: `0x1000 + 0x10 + 3 * 4`. -/
theorem address_no_wrap_witness :
    ((oneBox mmioBox).WF ∧ 0 < (oneBox mmioBox).boxPMUs.length ∧
      ((oneBox mmioBox).stored 7 0)[0]? = some mmioBox ∧ 3 < mmioBox.numRegs) ∧
    (∃ step, (registerStep 7 0 0).result (oneBox mmioBox) = some step ∧
      3 * step ≤ 254 * 8 ∧
      mmioBox.ctrlOffset + 3 * step ≤ 255 + 2032 ∧
      mmioBox.ctrOffset + 3 * step ≤ 255 + 2032 ∧
      (mmioBox.boxCtrlAddr + 2287 < 2 ^ 64 →
        (∃ a, (getBoxCtlAddrC 7 0 0 3).result (oneBox mmioBox) = some a ∧
          a = mmioBox.boxCtrlAddr + mmioBox.ctrlOffset + 3 * step ∧
          mmioBox.boxCtrlAddr ≤ a) ∧
        (∃ a, (getBoxCtrAddr 7 0 0 3).result (oneBox mmioBox) = some a ∧
          a = mmioBox.boxCtrlAddr + mmioBox.ctrOffset + 3 * step ∧
          mmioBox.boxCtrlAddr ≤ a))) ∧
    mmioBox.boxCtrlAddr + 2287 < 2 ^ 64 ∧
    (getBoxCtlAddrC 7 0 0 3).result (oneBox mmioBox) = some 0x101c :=
  ⟨by decide,
   address_no_wrap (oneBox mmioBox) (by decide) 7 0 0 3 mmioBox (by decide) (by decide)
     (by decide),
   by decide, by decide⟩

/-- C20: for a model whose descriptors respect the bit-field widths,
`getBoxAccessType(boxType, socket, pos)` returns `unknownAccessType` if and only if the
triple is invalid: the socket is out of range or `pos` is not below the number of
descriptors stored for `(socket, boxType)`. -/
theorem accessType_sentinel_iff (self : UncorePMUDiscovery) (hwf : self.WF)
    (boxType socket pos : Nat) :
    (getBoxAccessType boxType socket pos).result self = some unknownAccessType
      ↔ (self.boxPMUs.length ≤ socket ∨ (self.stored boxType socket).length ≤ pos) := by
  constructor
  · intro h
    by_contra hc
    have hs : socket < self.boxPMUs.length := by omega
    have hp : pos < (self.stored boxType socket).length := by omega
    have hd := List.getElem?_eq_getElem hp
    have hw : ((self.stored boxType socket)[pos]).accessType < 2 ^ 2 :=
      (wf_of_stored self hwf _ _ _ _ hd).2.2.2.2.2.2.1
    rw [Method.result, (field_eq self boxType socket pos _ hs hd).2.1] at h
    have h255 : ((self.stored boxType socket)[pos]).accessType = 255 := by
      simpa [unknownAccessType] using h
    omega
  · intro h
    by_cases hs : socket < self.boxPMUs.length
    · have hp : (self.stored boxType socket).length ≤ pos := by omega
      rw [Method.result, (field_pos self boxType socket pos hs hp).2.1]
      rfl
    · rw [Method.result, (field_ge self boxType socket pos (Nat.le_of_not_lt hs)).2.1]
      rfl

/-- Position 0 of the example is valid and reads MSR; position 1 is not and reads 255. -/
theorem accessType_sentinel_iff_witness :
    exampleModel.WF ∧
    ((getBoxAccessType 7 0 1).result exampleModel = some unknownAccessType
      ↔ (exampleModel.boxPMUs.length ≤ 0 ∨ (exampleModel.stored 7 0).length ≤ 1)) ∧
    (getBoxAccessType 7 0 1).result exampleModel = some 255 ∧
    (getBoxAccessType 7 0 0).result exampleModel = some MSR ∧
    ¬ (exampleModel.boxPMUs.length ≤ 0 ∨ (exampleModel.stored 7 0).length ≤ 0) :=
  ⟨by decide, accessType_sentinel_iff exampleModel (by decide) 7 0 1, by decide, by decide,
   by decide⟩

end UncorePMUDiscovery

end pcm
